import Mathlib

/-!
# A model of `process.c`

A shallow embedding of the process-management facility of `sources/process.c`
(spawn, wait, exitInfo, cancel, teardown) together with an executable model
of the part of the operating system the code talks to: the descriptor table
of the calling process, the table of its children, and a log of the system
calls made.

The build modelled is the debug build (`NDEBUG` undefined): `assert` is
active and the record carries `_magicNumber`.  The `fflush(NULL)` calls
are not modelled (the model has no stdio buffers).  Pointers that the code
asserts to be non-null (`self`, `f`) are values here; the nullable `out`
pointer is an `Option`.

What the code cannot control is a parameter of the model: the descriptors
`fileno` returns for the three standard streams (`Streams`), what `fork`
returns and how the child behaves (`ForkOracle`), how often `dup2` is
interrupted, and the value the uninitialised `status` of `Process_cancel`
holds.  The kernel is modelled for one calling process and its children:
`pipe` hands out the lowest free descriptors, `waitpid` and `kill` act on
single children with a positive pid, SIGCHLD keeps its default disposition
and `waitpid` is not interrupted.
-/

namespace Proc

/-! ## The state of the operating system and the outcome of a run -/

/-- Kernel object an open descriptor refers to. -/
inductive FileObj
  | file (n : Nat)
  | pipeEnd (pipe : Nat) (writeEnd : Bool)
  deriving DecidableEq, Repr

/-- The descriptor table of a process: slot `fd` holds the object open on
descriptor `fd`, or `none` when the descriptor is closed.  Its length is the
limit on the number of descriptors. -/
abbrev FdTable := List (Option FileObj)

/-- How a child terminated, as the kernel records it. -/
inductive Termination
  | exited (code : Nat)
  | signaled (sig : Nat) (core : Bool)
  deriving DecidableEq, Repr

/-- State of one child in the kernel's table.  A running child carries what
the parent cannot control: `fate = some (k, t)` says it terminates as `t`
after `k` further non-blocking polls have still found it running (`none`: it
does not terminate by itself), and `onTerm = some d` says it dies from
SIGTERM after `d` further such polls (`none`: it ignores SIGTERM).  The poll
count stands for real time, so sleeping does not change it.  A reaped child
stays in the table as history; the kernel no longer knows it. -/
inductive Child
  | running (fate : Option (Nat × Termination)) (onTerm : Option Nat)
  | zombie (t : Termination)
  | reaped (t : Termination)
  deriving DecidableEq, Repr

/-- A system call as logged in the trace; `waitpid` is logged with the
value it returned. -/
inductive Call
  | pipe (ret : Int)
  | fork (ret : Int)
  | close (fd : Nat)
  | dup2 (fd1 fd2 : Nat)
  | kill (pid : Int) (sig : Nat)
  | waitpid (pid : Int) (options : Nat) (ret : Int)
  | sleep (seconds : Nat)
  deriving DecidableEq, Repr

/-- The part of the operating system visible to the calling process. -/
structure World where
  fds : FdTable
  procs : List (Int × Child)
  nextPipe : Nat
  trace : List Call
  deriving DecidableEq, Repr

/-- Result of running code that may abort the program (`assert`, `ensure`,
`expect`, `die`) or block for ever; both keep the world reached. -/
inductive Run (α : Type)
  | ret (a : α)
  | abort (w : World)
  | hang (w : World)
  deriving DecidableEq, Repr

/-- Sequencing: an abort or a hang ends the run. -/
def Run.bind {α β : Type} (x : Run α) (f : α → Run β) : Run β :=
  match x with
  | .ret a => f a
  | .abort w => .abort w
  | .hang w => .hang w

instance : Monad Run where
  pure := Run.ret
  bind := Run.bind

/-- The check `ensure(condition)`: terminate the program unless it holds. -/
def ensure (condition : Bool) (w : World) : Run World :=
  if condition then .ret w else .abort w

/-- The `assert(condition)` of `<assert.h>`, active in the debug build. -/
def assert (condition : Bool) (w : World) : Run World :=
  if condition then .ret w else .abort w

/-! ## Wait statuses (`<sys/wait.h>`, glibc) -/

def SIGKILL : Nat := 9
def SIGTERM : Nat := 15
def WNOHANG : Nat := 1

/-- The glibc definition `(status & 0x7f) == 0`. -/
def WIFEXITED (status : Int) : Bool := status % 128 == 0

/-- The glibc definition `(status & 0xff00) >> 8`. -/
def WEXITSTATUS (status : Int) : Int := status % 65536 / 256

/-- The glibc definition `status & 0x7f`. -/
def WTERMSIG (status : Int) : Int := status % 128

/-- The glibc definition `((signed char) ((status & 0x7f) + 1) >> 1) > 0`. -/
def WIFSIGNALED (status : Int) : Bool :=
  let x := status % 128 + 1
  let sc := if x ≥ 128 then x - 256 else x
  decide (sc / 2 > 0)

/-- The status word the kernel hands to `waitpid` for a termination. -/
def Termination.status : Termination → Int
  | .exited code => (code % 256 : Nat) * 256
  | .signaled sig core => (sig % 128 : Nat) + (if core then 128 else 0)

/-! ## The system calls -/

def getFd (t : FdTable) (fd : Nat) : Option FileObj := t.getD fd none

def getProc (pid : Int) : List (Int × Child) → Option Child
  | [] => none
  | (q, c) :: t => if q = pid then some c else getProc pid t

def setProc (pid : Int) (c : Child) : List (Int × Child) → List (Int × Child)
  | [] => [(pid, c)]
  | (q, d) :: t => if q = pid then (pid, c) :: t else (q, d) :: setProc pid c t

def World.log (w : World) (c : Call) : World := { w with trace := w.trace ++ [c] }

/-- The call `close(fd)`: 0 on success, -1 (EBADF) when `fd` is not open. -/
def close (fd : Nat) (w : World) : Int × World :=
  match getFd w.fds fd with
  | some _ => (0, { w with fds := w.fds.set fd none, trace := w.trace ++ [.close fd] })
  | none => (-1, w.log (.close fd))

/-- The call `dup2(fd1, fd2)` when it is not interrupted by a signal: `fd2` on
success, -1 (EBADF) when `fd1` is not open or `fd2` is out of range. -/
def dup2 (fd1 fd2 : Nat) (w : World) : Int × World :=
  match getFd w.fds fd1 with
  | none => (-1, w.log (.dup2 fd1 fd2))
  | some o =>
    if fd2 < w.fds.length then
      (fd2, { w with fds := w.fds.set fd2 (some o), trace := w.trace ++ [.dup2 fd1 fd2] })
    else (-1, w.log (.dup2 fd1 fd2))

/-- Lowest-numbered closed descriptor. -/
def lowestFree : FdTable → Option Nat
  | [] => none
  | none :: _ => some 0
  | some _ :: t => (lowestFree t).map (· + 1)

/-- The call `pipe(fds)`: returns the return value, `fds[0]` (read end) and `fds[1]`
(write end); each end takes the lowest free descriptor. -/
def pipe (w : World) : Int × Nat × Nat × World :=
  match lowestFree w.fds with
  | none => (-1, 0, 0, w.log (.pipe (-1)))
  | some r =>
    match lowestFree (w.fds.set r (some (.pipeEnd w.nextPipe false))) with
    | none => (-1, 0, 0, w.log (.pipe (-1)))
    | some wr =>
      (0, r, wr,
        { w with
          fds := (w.fds.set r (some (.pipeEnd w.nextPipe false))).set wr
                   (some (.pipeEnd w.nextPipe true))
          nextPipe := w.nextPipe + 1
          trace := w.trace ++ [.pipe 0] })

/-- What `fork()` does this time: its return value in the context modelled
(-1 failure, 0 in the child, the child's pid in the parent) and how the new
child will behave. -/
structure ForkOracle where
  ret : Int
  fate : Option (Nat × Termination)
  onTerm : Option Nat
  deriving DecidableEq, Repr

/-- The call `fork()`.  In the parent the new child enters the table; in the child
the descriptor table is the inherited copy and there are no children. -/
def fork (o : ForkOracle) (w : World) : Int × World :=
  if o.ret = 0 then (0, { w with procs := [], trace := w.trace ++ [.fork 0] })
  else if o.ret > 0 then
    (o.ret, { w with procs := setProc o.ret (.running o.fate o.onTerm) w.procs
                     trace := w.trace ++ [.fork o.ret] })
  else (o.ret, w.log (.fork o.ret))

/-- The sooner of the termination already under way and a new one. -/
def sooner (fate : Option (Nat × Termination)) (d : Nat) (t : Termination) :
    Option (Nat × Termination) :=
  match fate with
  | none => some (d, t)
  | some (k, u) => if k ≤ d then some (k, u) else some (d, t)

/-- The call `kill(pid, sig)` for SIGTERM and SIGKILL: -1 (ESRCH) when the kernel
knows no such child. -/
def kill (pid : Int) (sig : Nat) (w : World) : Int × World :=
  match getProc pid w.procs with
  | none => (-1, w.log (.kill pid sig))
  | some (.reaped _) => (-1, w.log (.kill pid sig))
  | some (.zombie _) => (0, w.log (.kill pid sig))
  | some (.running fate onTerm) =>
    if sig = SIGKILL then
      (0, { w with procs := setProc pid (.zombie (.signaled SIGKILL false)) w.procs
                   trace := w.trace ++ [.kill pid sig] })
    else if sig = SIGTERM then
      match onTerm with
      | none => (0, w.log (.kill pid sig))
      | some d =>
        (0, { w with procs := setProc pid
                       (.running (sooner fate d (.signaled SIGTERM false)) onTerm) w.procs
                     trace := w.trace ++ [.kill pid sig] })
    else (0, w.log (.kill pid sig))

/-- The call `waitpid(pid, &status, options)` for one child: returns the return
value and the content of `status` afterwards, which is the old content
unless a termination is reported.  -1 is ECHILD.  A blocking call on a child
that never terminates does not return (and is not logged). -/
def waitpid (pid : Int) (status : Int) (options : Nat) (w : World) :
    Run (Int × Int × World) :=
  match getProc pid w.procs with
  | none => .ret (-1, status, w.log (.waitpid pid options (-1)))
  | some (.reaped _) => .ret (-1, status, w.log (.waitpid pid options (-1)))
  | some (.zombie t) =>
    .ret (pid, t.status, { w with procs := setProc pid (.reaped t) w.procs
                                  trace := w.trace ++ [.waitpid pid options pid] })
  | some (.running fate onTerm) =>
    if options = WNOHANG then
      match fate with
      | some (0, t) =>
        .ret (pid, t.status, { w with procs := setProc pid (.reaped t) w.procs
                                      trace := w.trace ++ [.waitpid pid options pid] })
      | some (k + 1, t) =>
        .ret (0, status, { w with procs := setProc pid (.running (some (k, t)) onTerm) w.procs
                                  trace := w.trace ++ [.waitpid pid options 0] })
      | none => .ret (0, status, w.log (.waitpid pid options 0))
    else
      match fate with
      | some (_, t) =>
        .ret (pid, t.status, { w with procs := setProc pid (.reaped t) w.procs
                                      trace := w.trace ++ [.waitpid pid options pid] })
      | none => .hang w

/-- The call `sleep(seconds)`. -/
def sleep (seconds : Nat) (w : World) : World := w.log (.sleep seconds)

/-! ## `process.c` -/

/-- The value of `_magicNumber` in a spawned record. -/
def MAGIC_NUMBER : Nat := 0xdeadbeaf

/-- The values of type `Error` that `process.c` returns: `Ok` and the two
constants it defines with `Error_new`. -/
inductive Error
  | Ok
  | ProcessUnableToFork
  | ProcessInvalidState
  deriving DecidableEq, Repr

/-- Modelled from the spec: `struct Process` is declared in `process.h`, which
is not among the sources; the fields are those `process.c` reads and writes
and the data model of the spec lists.  Descriptors are natural numbers: the
code stores only descriptors that `pipe` returned. -/
structure Process where
  _magicNumber : Nat
  _id : Int
  _inputFileDescriptor : Nat
  _errorFileDescriptor : Nat
  _outputFileDescriptor : Nat
  _exitValue : Int
  _isAlive : Bool
  _normallyExited : Bool
  deriving DecidableEq, Repr

/-- Modelled from the spec: `struct Process_ExitInfo` is declared in
`process.h`, which is not among the sources; the two fields are those
`Process_exitInfo` writes. -/
structure Process_ExitInfo where
  normallyExited : Bool
  exitValue : Int
  deriving DecidableEq, Repr

/-- The record `memset(self, 0, sizeof(*self))` leaves. -/
def Process.zero : Process :=
  { _magicNumber := 0, _id := 0, _inputFileDescriptor := 0, _errorFileDescriptor := 0,
    _outputFileDescriptor := 0, _exitValue := 0, _isAlive := false, _normallyExited := false }

/-- The `union Pipe`: `fileDescriptors[0]` and `fileDescriptors[1]`. -/
structure Pipe where
  inputFileDescriptor : Nat
  outputFileDescriptor : Nat
  deriving DecidableEq, Repr

/-- The function `Pipe_open`: `expect(pipe(...) == 0, ...)`. -/
def Pipe_open (w : World) : Run (Pipe × World) :=
  match pipe w with
  | (r, fd0, fd1, w1) =>
    if r == 0 then .ret ({ inputFileDescriptor := fd0, outputFileDescriptor := fd1 }, w1)
    else .abort w1

/-- The idiom `ensure(close(fd) == 0)`. -/
def ensureClose (fd : Nat) (w : World) : Run World :=
  match close fd w with
  | (c, w1) => ensure (c == 0) w1

/-- The function `moveFileDescriptor(fd1, fd2)`.  `intr` is the number of
times `dup2` is interrupted by a signal: it then returns -1 with `errno`
EINTR, `ensure(EINTR == errno)` passes and the loop tries again.  When the
uninterrupted `dup2` returns -1, `errno` is EBADF and that `ensure` ends the
program. -/
def moveFileDescriptor : Nat → Nat → Nat → World → Run World
  | intr + 1, fd1, fd2, w => moveFileDescriptor intr fd1 fd2 (w.log (.dup2 fd1 fd2))
  | 0, fd1, fd2, w =>
    match dup2 fd1 fd2 w with
    | (r, w1) => if r == -1 then .abort w1 else ensureClose fd1 w1

/-- The function `Process_exitInfo`; `self` is `const` and handed back as it
came. -/
def Process_exitInfo (self : Process) (out : Option Process_ExitInfo) (w : World) :
    Run (Error × Process × Option Process_ExitInfo × World) := do
  let w ← assert (self._magicNumber == MAGIC_NUMBER) w
  let w ← assert out.isSome w
  if self._isAlive then
    return (.ProcessInvalidState, self, out, w)
  else
    return (.Ok, self, some { normallyExited := self._normallyExited,
                               exitValue := self._exitValue }, w)

/-- The function `Process_wait`.  Its local `int status` has no initialiser;
it is only read after a `waitpid` that returned `self->_id`, which for the pid
of a child has written it, so its first value (0 here) is never seen. -/
def Process_wait (self : Process) (out : Option Process_ExitInfo) (w : World) :
    Run (Error × Process × Option Process_ExitInfo × World) := do
  let w ← assert (self._magicNumber == MAGIC_NUMBER) w
  if self._isAlive then
    let (r, status, w) ← waitpid self._id 0 0 w
    let w ← ensure (r == self._id) w
    let self ←
      if WIFEXITED status then
        (pure { self with _normallyExited := true, _exitValue := WEXITSTATUS status } : Run Process)
      else if WIFSIGNALED status then
        pure { self with _normallyExited := false, _exitValue := WTERMSIG status }
      else
        Run.abort w
    let self := { self with _isAlive := false }
    if out.isSome then
      let (e, self, out, w) ← Process_exitInfo self out w
      let w ← assert (e == .Ok) w
      return (.Ok, self, out, w)
    else
      return (.Ok, self, out, w)
  else
    return (.ProcessInvalidState, self, out, w)

/-- The descriptors behind the three standard streams of the C library:
what `fileno(stdin)`, `fileno(stdout)` and `fileno(stderr)` return. -/
structure Streams where
  stdin : Nat
  stdout : Nat
  stderr : Nat
  deriving DecidableEq, Repr

/-- How `Process_spawn` ends in the context modelled: it returns to its
caller (parent, or failed fork), or, in the child, it reaches the call `f()`
with the world given, after which the child ends in `_exit(0)` and never
returns. -/
inductive Spawned
  | returned (e : Error) (self : Process) (w : World)
  | child (w : World)
  deriving DecidableEq, Repr

/-- The function `Process_spawn`.  `o` is what `fork()` does, `intr` the
number of interruptions of the three `dup2` calls, `streams` what `fileno`
returns for the standard streams. -/
def Process_spawn (self : Process) (o : ForkOracle) (intr : Nat × Nat × Nat)
    (streams : Streams) (w : World) : Run Spawned := do
  let (pipeStderr, w) ← Pipe_open w
  let (pipeStdout, w) ← Pipe_open w
  let (pipeStdin, w) ← Pipe_open w
  let (pid, w) := fork o w
  if pid == -1 then
    return .returned .ProcessUnableToFork self w
  else if pid == 0 then
    let stdinFileDescriptor := streams.stdin
    let stderrFileDescriptor := streams.stderr
    let stdoutFileDescriptor := streams.stdout
    let w ← ensureClose stdinFileDescriptor w
    let w ← ensureClose stderrFileDescriptor w
    let w ← ensureClose stdoutFileDescriptor w
    let w ← ensureClose pipeStdin.outputFileDescriptor w
    let w ← ensureClose pipeStderr.inputFileDescriptor w
    let w ← ensureClose pipeStdout.inputFileDescriptor w
    let w ← moveFileDescriptor intr.1 pipeStdin.inputFileDescriptor stdinFileDescriptor w
    let w ← moveFileDescriptor intr.2.1 pipeStderr.outputFileDescriptor stderrFileDescriptor w
    let w ← moveFileDescriptor intr.2.2 pipeStdout.outputFileDescriptor stdoutFileDescriptor w
    return .child w
  else
    let w ← ensureClose pipeStdin.inputFileDescriptor w
    let w ← ensureClose pipeStderr.outputFileDescriptor w
    let w ← ensureClose pipeStdout.outputFileDescriptor w
    return .returned .Ok
      { _magicNumber := MAGIC_NUMBER
        _id := pid
        _inputFileDescriptor := pipeStdin.outputFileDescriptor
        _errorFileDescriptor := pipeStderr.inputFileDescriptor
        _outputFileDescriptor := pipeStdout.inputFileDescriptor
        _exitValue := 0
        _isAlive := true
        _normallyExited := false } w

/-- The polling loop of `Process_cancel`, `n` iterations left; `status` is
the local variable, which `waitpid` writes only when it reports a
termination. -/
def cancelLoop : Nat → Int → Int → World → Run (Int × World)
  | 0, _, status, w => .ret (status, w)
  | n + 1, pid, status, w => do
    let (r, status, w) ← waitpid pid status WNOHANG w
    let w ← ensure (decide (r ≥ 0)) w
    let w := if !WIFEXITED status && !WIFSIGNALED status then sleep 1 w else w
    cancelLoop n pid status w

/-- The function `Process_cancel`.  The local `int status` is declared
without an initialiser; `status` is the value it happens to hold. -/
def Process_cancel (self : Process) (status : Int) (w : World) : Run (Process × World) := do
  let w ← assert (self._magicNumber == MAGIC_NUMBER) w
  let w ← assert self._isAlive w
  let pid := self._id
  let (k, w) := kill pid SIGTERM w
  let w ← ensure (k == 0) w
  let (status, w) ← cancelLoop 3 pid status w
  let w ←
    if !WIFEXITED status && !WIFSIGNALED status then
      (match kill pid SIGKILL w with
       | (k, w1) => ensure (k == 0) w1)
    else pure w
  let (e, self, _, w) ← Process_wait self none w
  let w ← assert (e == .Ok) w
  return (self, w)

/-- The function `Process_teardown`. -/
def Process_teardown (self : Process) (w : World) : Run (Process × World) := do
  let w ← assert (self._magicNumber == MAGIC_NUMBER) w
  let w ← assert (!self._isAlive) w
  let w ← ensureClose self._inputFileDescriptor w
  let w ← ensureClose self._errorFileDescriptor w
  let w ← ensureClose self._outputFileDescriptor w
  return (Process.zero, w)

/-- The function `Process_id`. -/
def Process_id (self : Process) (w : World) : Run (Int × World) := do
  let w ← assert (self._magicNumber == MAGIC_NUMBER) w
  return (self._id, w)

/-- The function `Process_isAlive`. -/
def Process_isAlive (self : Process) (w : World) : Run (Bool × World) := do
  let w ← assert (self._magicNumber == MAGIC_NUMBER) w
  return (self._isAlive, w)

/-! ## Vocabulary of the statements -/

/-- What a blocking `waitpid` on `pid` is going to report: the termination
of a zombie, or the one a running child is heading for. -/
def awaited (pid : Int) (w : World) : Option Termination :=
  match getProc pid w.procs with
  | some (.zombie t) => some t
  | some (.running (some (_, t)) _) => some t
  | _ => none

/-- The world after the child `pid` has been reaped by a blocking wait. -/
def reapedWorld (pid : Int) (t : Termination) (w : World) : World :=
  { w with procs := setProc pid (.reaped t) w.procs
           trace := w.trace ++ [.waitpid pid 0 pid] }

/-- The record `Process_wait` leaves for a status word. -/
def recorded (self : Process) (status : Int) : Process :=
  if WIFEXITED status then
    { self with _normallyExited := true, _exitValue := WEXITSTATUS status, _isAlive := false }
  else
    { self with _normallyExited := false, _exitValue := WTERMSIG status, _isAlive := false }

/-- The exit state a termination stands for: the low eight bits of the exit
code after a normal exit, the signal number after a death by signal. -/
def Termination.info : Termination → Process_ExitInfo
  | .exited code => { normallyExited := true, exitValue := (code % 256 : Nat) }
  | .signaled sig _ => { normallyExited := false, exitValue := sig }

/-- A termination the kernel can report: a signal number lies in 1..126. -/
def Termination.valid : Termination → Bool
  | .exited _ => true
  | .signaled sig _ => decide (1 ≤ sig) && decide (sig ≤ 126)

/-- The test `!WIFEXITED(status) && !WIFSIGNALED(status)` that `Process_cancel`
makes on its local `status`. -/
def stillRunning (status : Int) : Bool := !WIFEXITED status && !WIFSIGNALED status

/-- The fate of a running child once SIGTERM has been sent to it: a child
that ignores SIGTERM keeps its fate, one that honours it dies from SIGTERM
unless it terminates sooner by itself. -/
def fateAfterTerm (fate : Option (Nat × Termination)) (onTerm : Option Nat) :
    Option (Nat × Termination) :=
  match onTerm with
  | none => fate
  | some d => sooner fate d (.signaled SIGTERM false)

/-- The termination of the child `pid` that a `Process_cancel` which returns
observes, read off the child in the world before the call and the value the
uninitialised `status` holds: the child must be running and must not
terminate within the three polls (the program is ended otherwise); it is then
killed by SIGKILL if `status` reads as still running, and else waited for,
which returns only if it terminates. -/
def observedByCancel (pid : Int) (status : Int) (w : World) : Option Termination :=
  match getProc pid w.procs with
  | some (.running fate onTerm) =>
    match fateAfterTerm fate onTerm with
    | some (k, t) =>
      if k < 3 then none
      else if stillRunning status then some (.signaled SIGKILL false)
      else some t
    | none => if stillRunning status then some (.signaled SIGKILL false) else none
  | _ => none

/-- The system calls of a `Process_cancel` that returns: SIGTERM, three polls
that find the child running, each followed by a sleep and then SIGKILL if
`status` reads as still running, and the final wait that reaps the child. -/
def cancelCalls (pid : Int) (status : Int) : List Call :=
  [.kill pid SIGTERM] ++
    (if stillRunning status then
      [.waitpid pid WNOHANG 0, .sleep 1, .waitpid pid WNOHANG 0, .sleep 1,
       .waitpid pid WNOHANG 0, .sleep 1, .kill pid SIGKILL]
     else [.waitpid pid WNOHANG 0, .waitpid pid WNOHANG 0, .waitpid pid WNOHANG 0]) ++
    [.waitpid pid 0 pid]

/-- Two descriptor numbers that differ; a name for `a ≠ b` that keeps such
facts apart from the order facts about pipe descriptors. -/
def Apart (a b : Nat) : Prop := a ≠ b

/-! ## Concrete worlds used as examples -/

/-- The usual layout: the standard streams on the descriptors 0, 1 and 2. -/
def stdStreams : Streams := { stdin := 0, stdout := 1, stderr := 2 }

/-- A process with the descriptors 0, 1 and 2 open and room for sixteen
descriptors, no children. -/
def world0 : World :=
  { fds := [some (.file 0), some (.file 1), some (.file 2)] ++ List.replicate 13 none
    procs := [], nextPipe := 0, trace := [] }

/-- The world `world0` after the first `Pipe_open`. -/
def world1 : World :=
  { fds := [some (.file 0), some (.file 1), some (.file 2), some (.pipeEnd 0 false),
            some (.pipeEnd 0 true)] ++ List.replicate 11 none
    procs := [], nextPipe := 1, trace := [.pipe 0] }

/-- The world `world0` after the second `Pipe_open`. -/
def world2 : World :=
  { fds := [some (.file 0), some (.file 1), some (.file 2), some (.pipeEnd 0 false),
            some (.pipeEnd 0 true), some (.pipeEnd 1 false), some (.pipeEnd 1 true)] ++
           List.replicate 9 none
    procs := [], nextPipe := 2, trace := [.pipe 0, .pipe 0] }

/-- The world `world0` after the third `Pipe_open`. -/
def world3 : World :=
  { fds := [some (.file 0), some (.file 1), some (.file 2), some (.pipeEnd 0 false),
            some (.pipeEnd 0 true), some (.pipeEnd 1 false), some (.pipeEnd 1 true),
            some (.pipeEnd 2 false), some (.pipeEnd 2 true)] ++ List.replicate 7 none
    procs := [], nextPipe := 3, trace := [.pipe 0, .pipe 0, .pipe 0] }

/-- The record `Process_spawn` leaves in the parent at `world0` when the child
gets pid 42. -/
def liveProcess : Process :=
  { _magicNumber := MAGIC_NUMBER, _id := 42, _inputFileDescriptor := 8,
    _errorFileDescriptor := 3, _outputFileDescriptor := 5, _exitValue := 0,
    _isAlive := true, _normallyExited := false }

/-- The world after `liveProcess` was spawned from `world0`, its child in
state `c`. -/
def worldWith (c : Child) : World :=
  { fds := [some (.file 0), some (.file 1), some (.file 2), some (.pipeEnd 0 false), none,
            some (.pipeEnd 1 false), none, none, some (.pipeEnd 2 true)] ++
           List.replicate 7 none
    procs := [(42, c)], nextPipe := 3, trace := [] }

/-- A record after its child was waited for. -/
def deadProcess : Process :=
  { liveProcess with _isAlive := false, _normallyExited := true, _exitValue := 1 }

/-- The world `Process_spawn` leaves in the parent at `world0` when the child
gets pid 42 and dies from SIGTERM at once. -/
def worldSpawned : World :=
  { fds := [some (.file 0), some (.file 1), some (.file 2), some (.pipeEnd 0 false), none,
            some (.pipeEnd 1 false), none, none, some (.pipeEnd 2 true)] ++
           List.replicate 7 none
    procs := [(42, .running none (some 0))], nextPipe := 3
    trace := [.pipe 0, .pipe 0, .pipe 0, .fork 42, .close 7, .close 4, .close 6] }

/-- The record and world after a cancel in which no poll saw the child
terminate, no SIGKILL was sent and the child died from SIGTERM. -/
def cancelledByTerm : Process × World :=
  ({ liveProcess with _isAlive := false, _exitValue := 15 },
   { worldWith (.reaped (.signaled 15 false)) with
     trace := [.kill 42 15, .waitpid 42 1 0, .waitpid 42 1 0, .waitpid 42 1 0,
       .waitpid 42 0 42] })

/-- The record and world after a cancel in which no poll saw the child
terminate, each poll was followed by a sleep and SIGKILL was sent. -/
def cancelledByKill : Process × World :=
  ({ liveProcess with _isAlive := false, _exitValue := 9 },
   { worldWith (.reaped (.signaled 9 false)) with
     trace := [.kill 42 15, .waitpid 42 1 0, .sleep 1, .waitpid 42 1 0, .sleep 1,
       .waitpid 42 1 0, .sleep 1, .kill 42 9, .waitpid 42 0 42] })

/-- A layout in which `stdout` was reopened on descriptor 3, descriptor 1
still being open on the old file. -/
def movedStreams : Streams := { stdin := 0, stdout := 3, stderr := 2 }

/-- A process with the descriptors 0 to 3 open, where `stdout` is on 3. -/
def worldMoved : World :=
  { fds := [some (.file 0), some (.file 1), some (.file 2), some (.file 3)] ++
           List.replicate 12 none
    procs := [], nextPipe := 0, trace := [] }

/-- The world `worldMoved` after the first `Pipe_open`. -/
def worldMoved1 : World :=
  { fds := [some (.file 0), some (.file 1), some (.file 2), some (.file 3),
            some (.pipeEnd 0 false), some (.pipeEnd 0 true)] ++ List.replicate 10 none
    procs := [], nextPipe := 1, trace := [.pipe 0] }

/-- The world `worldMoved` after the second `Pipe_open`. -/
def worldMoved2 : World :=
  { fds := [some (.file 0), some (.file 1), some (.file 2), some (.file 3),
            some (.pipeEnd 0 false), some (.pipeEnd 0 true), some (.pipeEnd 1 false),
            some (.pipeEnd 1 true)] ++ List.replicate 8 none
    procs := [], nextPipe := 2, trace := [.pipe 0, .pipe 0] }

/-- The world `worldMoved` after the third `Pipe_open`. -/
def worldMoved3 : World :=
  { fds := [some (.file 0), some (.file 1), some (.file 2), some (.file 3),
            some (.pipeEnd 0 false), some (.pipeEnd 0 true), some (.pipeEnd 1 false),
            some (.pipeEnd 1 true), some (.pipeEnd 2 false), some (.pipeEnd 2 true)] ++
           List.replicate 6 none
    procs := [], nextPipe := 3, trace := [.pipe 0, .pipe 0, .pipe 0] }
/-! ## Basic facts -/

@[simp] theorem ret_bind {α β : Type} (a : α) (f : α → Run β) :
    (Run.ret a >>= f) = f a := rfl

@[simp] theorem abort_bind {α β : Type} (w : World) (f : α → Run β) :
    ((Run.abort w : Run α) >>= f) = Run.abort w := rfl

@[simp] theorem hang_bind {α β : Type} (w : World) (f : α → Run β) :
    ((Run.hang w : Run α) >>= f) = Run.hang w := rfl

@[simp] theorem pure_eq_ret {α : Type} (a : α) : (pure a : Run α) = Run.ret a := rfl

theorem bind_eq_ret {α β : Type} (x : Run α) (f : α → Run β) (b : β) :
    (x >>= f) = Run.ret b ↔ ∃ a, x = Run.ret a ∧ f a = Run.ret b := by
  cases x <;> simp

@[simp] theorem ensure_eq_ret (c : Bool) (w w1 : World) :
    ensure c w = Run.ret w1 ↔ c = true ∧ w1 = w := by
  unfold ensure; cases c <;> simp [eq_comm]

@[simp] theorem assert_eq_ret (c : Bool) (w w1 : World) :
    assert c w = Run.ret w1 ↔ c = true ∧ w1 = w := by
  unfold assert; cases c <;> simp [eq_comm]

theorem waitpid_blocking_awaited (pid : Int) (s : Int) (w : World) (t : Termination)
    (h : awaited pid w = some t) :
    waitpid pid s 0 w = Run.ret (pid, t.status, reapedWorld pid t w) := by
  unfold awaited at h
  unfold waitpid reapedWorld
  split at h
  · next heq => simp only [Option.some.injEq] at h; subst h; simp [heq]
  · next heq => simp only [Option.some.injEq] at h; subst h; simp [heq, WNOHANG]
  · simp at h

theorem status_exited (N : Nat) (h : N ≤ 255) :
    WIFEXITED (Termination.exited N).status = true ∧
      WEXITSTATUS (Termination.exited N).status = N := by
  have hN : N % 256 = N := Nat.mod_eq_of_lt (by omega)
  simp only [WIFEXITED, WEXITSTATUS, Termination.status, hN]
  constructor
  · simp only [beq_iff_eq]; omega
  · omega

theorem status_signaled (S : Nat) (core : Bool) (h1 : 1 ≤ S) (h2 : S ≤ 126) :
    WIFEXITED (Termination.signaled S core).status = false ∧
      WIFSIGNALED (Termination.signaled S core).status = true ∧
      WTERMSIG (Termination.signaled S core).status = S := by
  have hS : S % 128 = S := Nat.mod_eq_of_lt (by omega)
  simp only [WIFEXITED, WIFSIGNALED, WTERMSIG, Termination.status, hS]
  cases core <;> simp <;> omega

theorem waitpid_blocking_none (pid : Int) (s : Int) (w : World) (h : awaited pid w = none) :
    waitpid pid s 0 w = Run.ret (-1, s, w.log (.waitpid pid 0 (-1))) ∨
      waitpid pid s 0 w = Run.hang w := by
  unfold awaited at h
  unfold waitpid
  split at h
  · simp at h
  · simp at h
  · next hne1 hne2 =>
    cases hp : getProc pid w.procs with
    | none => simp
    | some c =>
      cases c with
      | zombie t => exact absurd hp (hne1 t)
      | reaped t => simp
      | running fate onTerm =>
        cases fate with
        | none => simp [WNOHANG]
        | some kt => exact absurd hp (hne2 kt.1 kt.2 onTerm)

theorem Process_wait_of_awaited (self : Process) (out : Option Process_ExitInfo) (w : World)
    (t : Termination) (hmagic : self._magicNumber = MAGIC_NUMBER)
    (halive : self._isAlive = true) (haw : awaited self._id w = some t)
    (hst : WIFEXITED t.status = true ∨ WIFSIGNALED t.status = true) :
    Process_wait self out w =
      Run.ret (Error.Ok, recorded self t.status,
        out.map (fun _ => { normallyExited := (recorded self t.status)._normallyExited,
                            exitValue := (recorded self t.status)._exitValue }),
        reapedWorld self._id t w) := by
  unfold Process_wait
  simp only [hmagic, halive, waitpid_blocking_awaited _ _ _ _ haw, assert, ensure, beq_self_eq_true,
    if_true, ret_bind, pure_eq_ret]
  by_cases he : WIFEXITED t.status = true
  · simp only [he, if_true, ret_bind, recorded]
    cases out with
    | none =>
      simp only [Option.isSome_none, Bool.false_eq_true, if_false, Option.map_none']
      rw [hmagic]
    | some o =>
      simp only [Option.isSome_some, if_true, Process_exitInfo, assert, beq_self_eq_true, ret_bind,
        pure_eq_ret, Bool.false_eq_true, if_false, Option.map_some']
      rw [hmagic]
  · have hs : WIFSIGNALED t.status = true := by
      cases hst with
      | inl h => exact absurd h he
      | inr h => exact h
    simp only [he, hs, if_true, if_false, ret_bind, recorded, Bool.false_eq_true]
    cases out with
    | none =>
      simp only [Option.isSome_none, Bool.false_eq_true, if_false, Option.map_none']
      rw [hmagic]
    | some o =>
      simp only [Option.isSome_some, if_true, Process_exitInfo, assert, beq_self_eq_true, ret_bind,
        pure_eq_ret, Bool.false_eq_true, if_false, Option.map_some']
      rw [hmagic]

theorem waitpid_blocking_inv (pid : Int) (s st : Int) (w w1 : World) (hpid : 0 < pid)
    (h : waitpid pid s 0 w = Run.ret (pid, st, w1)) :
    ∃ t, awaited pid w = some t ∧ st = t.status ∧ w1 = reapedWorld pid t w := by
  cases haw : awaited pid w with
  | some t =>
    rw [waitpid_blocking_awaited pid s w t haw] at h
    simp only [Run.ret.injEq, Prod.mk.injEq, true_and] at h
    exact ⟨t, rfl, h.1.symm, h.2.symm⟩
  | none =>
    rcases waitpid_blocking_none pid s w haw with h1 | h1
    · rw [h1] at h
      simp only [Run.ret.injEq, Prod.mk.injEq] at h
      omega
    · rw [h1] at h
      simp at h

theorem Process_wait_alive_eq (self : Process) (out : Option Process_ExitInfo) (w w2 : World)
    (r st : Int) (hmagic : self._magicNumber = MAGIC_NUMBER) (halive : self._isAlive = true)
    (hw : waitpid self._id 0 0 w = Run.ret (r, st, w2)) :
    Process_wait self out w =
      if r = self._id then
        if WIFEXITED st = true ∨ WIFSIGNALED st = true then
          Run.ret (Error.Ok, recorded self st,
            out.map (fun _ => { normallyExited := (recorded self st)._normallyExited,
                                exitValue := (recorded self st)._exitValue }),
            w2)
        else Run.abort w2
      else Run.abort w2 := by
  unfold Process_wait
  simp only [hmagic, halive, hw, assert, ensure, beq_self_eq_true, if_true, ret_bind, pure_eq_ret]
  by_cases hr : r = self._id
  · subst hr
    simp only [beq_self_eq_true, if_true, ret_bind]
    by_cases he : WIFEXITED st = true
    · simp only [he, if_true, true_or, recorded]
      cases out with
      | none =>
        simp only [Option.isSome_none, Bool.false_eq_true, if_false, Option.map_none']
        rw [hmagic]
      | some o =>
        simp only [Option.isSome_some, if_true, Process_exitInfo, assert, beq_self_eq_true,
          ret_bind, pure_eq_ret, Bool.false_eq_true, if_false, Option.map_some']
        rw [hmagic]
    · by_cases hs : WIFSIGNALED st = true
      · simp only [he, hs, if_true, if_false, or_true, recorded, Bool.false_eq_true]
        cases out with
        | none =>
          simp only [Option.isSome_none, Bool.false_eq_true, if_false, Option.map_none']
          rw [hmagic]
        | some o =>
          simp only [Option.isSome_some, if_true, Process_exitInfo, assert, beq_self_eq_true,
            ret_bind, pure_eq_ret, Bool.false_eq_true, if_false, Option.map_some']
          rw [hmagic]
      · simp only [he, hs, if_false, or_self, abort_bind, Bool.false_eq_true]
  · have hr2 : (r == self._id) = false := by
      cases hb : (r == self._id)
      · rfl
      · exact absurd (beq_iff_eq.mp hb) hr
    simp only [hr2, hr, if_false, Bool.false_eq_true, abort_bind]

theorem Process_wait_inv (self p1 : Process) (out out1 : Option Process_ExitInfo)
    (w w1 : World) (e : Error) (h : Process_wait self out w = Run.ret (e, p1, out1, w1)) :
    (self._isAlive = false ∧ e = Error.ProcessInvalidState ∧ p1 = self ∧ out1 = out ∧ w1 = w) ∨
    (self._isAlive = true ∧ e = Error.Ok ∧
      ∃ st, waitpid self._id 0 0 w = Run.ret (self._id, st, w1) ∧
        (WIFEXITED st = true ∨ WIFSIGNALED st = true) ∧ p1 = recorded self st ∧
        out1 = out.map (fun _ => { normallyExited := p1._normallyExited,
                                   exitValue := p1._exitValue })) := by
  by_cases hm : self._magicNumber = MAGIC_NUMBER
  · cases halive : self._isAlive with
    | false =>
      left
      unfold Process_wait at h
      simp only [hm, assert, beq_self_eq_true, if_true, ret_bind, halive, Bool.false_eq_true,
        if_false, pure_eq_ret, Run.ret.injEq, Prod.mk.injEq] at h
      obtain ⟨h1, h2, h3, h4⟩ := h
      exact ⟨rfl, h1.symm, h2.symm, h3.symm, h4.symm⟩
    | true =>
      right
      cases hw : waitpid self._id 0 0 w with
      | abort w2 =>
        unfold Process_wait at h
        simp only [hm, assert, beq_self_eq_true, if_true, ret_bind, halive, hw, abort_bind] at h
        exact Run.noConfusion h
      | hang w2 =>
        unfold Process_wait at h
        simp only [hm, assert, beq_self_eq_true, if_true, ret_bind, halive, hw, hang_bind] at h
        exact Run.noConfusion h
      | ret a =>
        obtain ⟨r, st, w2⟩ := a
        rw [Process_wait_alive_eq self out w w2 r st hm halive hw] at h
        by_cases hr : r = self._id
        · by_cases hst : WIFEXITED st = true ∨ WIFSIGNALED st = true
          · simp only [hr, hst, if_true, Run.ret.injEq, Prod.mk.injEq] at h
            obtain ⟨h1, h2, h3, h4⟩ := h
            subst h1 h2 h3 h4 hr
            exact ⟨rfl, rfl, st, rfl, hst, rfl, rfl⟩
          · simp only [hr, hst, if_true, if_false] at h
            exact Run.noConfusion h
        · simp only [hr, if_false] at h
          exact Run.noConfusion h
  · unfold Process_wait at h
    have hm2 : (self._magicNumber == MAGIC_NUMBER) = false := by
      cases hb : (self._magicNumber == MAGIC_NUMBER)
      · rfl
      · exact absurd (beq_iff_eq.mp hb) hm
    simp only [hm2, assert, Bool.false_eq_true, if_false, abort_bind] at h
    exact Run.noConfusion h
theorem getFd_set (t : FdTable) (i j : Nat) (v : Option FileObj) :
    getFd (t.set i v) j = if i = j ∧ i < t.length then v else getFd t j := by
  unfold getFd
  rw [List.getD_eq_getElem?_getD, List.getD_eq_getElem?_getD, List.getElem?_set]
  by_cases h : i = j
  · subst h
    by_cases h2 : i < t.length
    · simp only [h2, if_true, and_self, Option.getD_some]
    · have h3 : t.length ≤ i := by omega
      simp only [h2, if_false, and_false, List.getElem?_eq_none h3, if_true]
  · simp only [h, if_false, false_and]

theorem getFd_lt (t : FdTable) (fd : Nat) (o : FileObj) (h : getFd t fd = some o) :
    fd < t.length := by
  unfold getFd at h
  by_contra hc
  have h3 : t.length ≤ fd := by omega
  rw [List.getD_eq_getElem?_getD, List.getElem?_eq_none h3] at h
  exact Option.noConfusion h

theorem ensureClose_open (fd : Nat) (w : World) (o : FileObj) (h : getFd w.fds fd = some o) :
    ensureClose fd w =
      Run.ret { w with fds := w.fds.set fd none, trace := w.trace ++ [.close fd] } := by
  unfold ensureClose close
  rw [h]
  rfl
theorem getProc_setProc_same (pid : Int) (c : Child) (l : List (Int × Child)) :
    getProc pid (setProc pid c l) = some c := by
  induction l with
  | nil => simp only [setProc, getProc, if_true]
  | cons hd tl ih =>
    obtain ⟨q, d⟩ := hd
    by_cases hq : q = pid
    · simp only [setProc, hq, if_true, getProc]
    · simp only [setProc, hq, if_false, getProc, ih]

theorem getProc_setProc_ne (pid q : Int) (c : Child) (l : List (Int × Child)) (h : q ≠ pid) :
    getProc q (setProc pid c l) = getProc q l := by
  induction l with
  | nil => simp only [setProc, getProc, if_neg (Ne.symm h)]
  | cons hd tl ih =>
    obtain ⟨r, d⟩ := hd
    by_cases hr : r = pid
    · subst hr
      simp only [setProc, if_true, getProc, if_neg (Ne.symm h)]
    · by_cases hrq : r = q
      · subst hrq
        simp only [setProc, hr, if_false, getProc, if_true]
      · simp only [setProc, hr, if_false, getProc, hrq, ih]

theorem recorded_valid (self : Process) (t : Termination) (hv : t.valid = true) :
    (WIFEXITED t.status = true ∨ WIFSIGNALED t.status = true) ∧
      recorded self t.status =
        { self with _normallyExited := t.info.normallyExited, _exitValue := t.info.exitValue,
                    _isAlive := false } := by
  cases t with
  | exited code =>
    have hc : code % 256 ≤ 255 := by omega
    obtain ⟨h1, h2⟩ := status_exited (code % 256) hc
    have hs : (Termination.exited code).status = (Termination.exited (code % 256)).status := by
      simp only [Termination.status, Nat.mod_mod]
    rw [hs]
    refine ⟨Or.inl h1, ?_⟩
    simp only [recorded, h1, if_true, h2, Termination.info]
  | signaled sig core =>
    simp only [Termination.valid, Bool.and_eq_true, decide_eq_true_eq] at hv
    obtain ⟨h1, h2, h3⟩ := status_signaled sig core hv.1 hv.2
    refine ⟨Or.inr h2, ?_⟩
    simp only [recorded, h1, Bool.false_eq_true, if_false, h3, Termination.info]

theorem Process_wait_ok_spec (self p1 : Process) (out out1 : Option Process_ExitInfo)
    (w w1 : World) (hpid : 0 < self._id)
    (h : Process_wait self out w = Run.ret (Error.Ok, p1, out1, w1)) :
    self._isAlive = true ∧ p1._isAlive = false ∧
      ∃ t, awaited self._id w = some t ∧ w1 = reapedWorld self._id t w ∧
        getProc self._id w1.procs = some (.reaped t) ∧ p1 = recorded self t.status := by
  rcases Process_wait_inv self p1 out out1 w w1 Error.Ok h with h1 | h1
  · exact Error.noConfusion h1.2.1
  · obtain ⟨halive, _, st, hw, _, hp, _⟩ := h1
    obtain ⟨t, haw, hst, hw1⟩ := waitpid_blocking_inv self._id 0 st w w1 hpid hw
    refine ⟨halive, ?_, t, haw, hw1, ?_, ?_⟩
    · rw [hp]; unfold recorded; split <;> rfl
    · rw [hw1]; exact getProc_setProc_same _ _ _
    · rw [hp, hst]

theorem getFd_set_ne (t : FdTable) (i j : Nat) (v : Option FileObj) (h : i ≠ j) :
    getFd (t.set i v) j = getFd t j := by
  rw [getFd_set, if_neg (fun hc => h hc.1)]

theorem getFd_set_eq (t : FdTable) (i : Nat) (v : Option FileObj) (h : i < t.length) :
    getFd (t.set i v) i = v := by
  rw [getFd_set, if_pos ⟨rfl, h⟩]

theorem lowestFree_spec (t : FdTable) (i : Nat) (h : lowestFree t = some i) :
    getFd t i = none ∧ i < t.length ∧ ∀ j, j < i → getFd t j ≠ none := by
  induction t generalizing i with
  | nil => exact Option.noConfusion h
  | cons hd tl ih =>
    cases hd with
    | none =>
      simp only [lowestFree, Option.some.injEq] at h
      subst h
      exact ⟨rfl, Nat.zero_lt_succ _, fun j hj => absurd hj (Nat.not_lt_zero j)⟩
    | some o =>
      simp only [lowestFree, Option.map_eq_some'] at h
      obtain ⟨k, hk, rfl⟩ := h
      obtain ⟨h1, h2, h3⟩ := ih k hk
      refine ⟨?_, Nat.succ_lt_succ h2, ?_⟩
      · unfold getFd at h1 ⊢
        simpa only [List.getD_cons_succ] using h1
      · intro j hj
        cases j with
        | zero => exact fun hc => Option.noConfusion hc
        | succ m =>
          have hm := h3 m (by omega)
          unfold getFd at hm ⊢
          simpa only [List.getD_cons_succ] using hm

/-- What a successful `Pipe_open` did: the two ends were closed descriptors
before, the read end is the lower one, and afterwards they refer to the two
ends of a new pipe, every other descriptor is as before, and no descriptor up
to the write end is closed. -/
theorem Pipe_open_spec (w w1 : World) (p : Pipe) (h : Pipe_open w = Run.ret (p, w1)) :
    getFd w.fds p.inputFileDescriptor = none ∧ getFd w.fds p.outputFileDescriptor = none ∧
    p.inputFileDescriptor < p.outputFileDescriptor ∧
    p.outputFileDescriptor < w.fds.length ∧
    (∀ j, j ≤ p.outputFileDescriptor → getFd w1.fds j ≠ none) ∧
    w1.fds = (w.fds.set p.inputFileDescriptor (some (.pipeEnd w.nextPipe false))).set
      p.outputFileDescriptor (some (.pipeEnd w.nextPipe true)) ∧
    w1.procs = w.procs ∧ w1.nextPipe = w.nextPipe + 1 ∧ w1.trace = w.trace ++ [.pipe 0] := by
  unfold Pipe_open pipe at h
  cases h1 : lowestFree w.fds with
  | none =>
    simp [h1] at h
  | some r =>
    cases h2 : lowestFree (w.fds.set r (some (.pipeEnd w.nextPipe false))) with
    | none =>
      simp [h1, h2] at h
    | some wr =>
      simp only [h1, h2, beq_self_eq_true, if_true, Run.ret.injEq, Prod.mk.injEq] at h
      obtain ⟨hp, hw⟩ := h
      subst hp hw
      obtain ⟨a1, a2, a3⟩ := lowestFree_spec _ _ h1
      obtain ⟨b1, b2, b3⟩ := lowestFree_spec _ _ h2
      rw [List.length_set] at b2
      rw [getFd_set] at b1
      have hne : r ≠ wr := by
        intro hc
        rw [if_pos ⟨hc, a2⟩] at b1
        exact Option.noConfusion b1
      rw [if_neg (fun hc => hne hc.1)] at b1
      have hlt : r < wr := by
        rcases Nat.lt_or_ge r wr with hlt | hge
        · exact hlt
        · exact absurd b1 (a3 wr (by omega))
      refine ⟨a1, b1, hlt, b2, ?_, rfl, rfl, rfl, rfl⟩
      intro j hj
      have hj2 : j ≤ wr := hj
      show getFd ((w.fds.set r _).set wr _) j ≠ none
      by_cases hjw : j = wr
      · subst hjw
        rw [getFd_set_eq _ _ _ (by rw [List.length_set]; exact b2)]
        exact fun hc => Option.noConfusion hc
      · rw [getFd_set_ne _ _ _ _ (Ne.symm hjw)]
        exact b3 j (by omega)
/-- The three pipes `Process_spawn` opens: the six descriptors were closed
before and are handed out in increasing order. -/
theorem three_pipes (w wa wb wc : World) (pe po pi : Pipe)
    (h1 : Pipe_open w = Run.ret (pe, wa)) (h2 : Pipe_open wa = Run.ret (po, wb))
    (h3 : Pipe_open wb = Run.ret (pi, wc)) :
    (pe.inputFileDescriptor < pe.outputFileDescriptor ∧
      pe.outputFileDescriptor < po.inputFileDescriptor ∧
      po.inputFileDescriptor < po.outputFileDescriptor ∧
      po.outputFileDescriptor < pi.inputFileDescriptor ∧
      pi.inputFileDescriptor < pi.outputFileDescriptor ∧
      pi.outputFileDescriptor < w.fds.length) ∧
    (getFd w.fds pe.inputFileDescriptor = none ∧ getFd w.fds pe.outputFileDescriptor = none ∧
      getFd w.fds po.inputFileDescriptor = none ∧ getFd w.fds po.outputFileDescriptor = none ∧
      getFd w.fds pi.inputFileDescriptor = none ∧ getFd w.fds pi.outputFileDescriptor = none) ∧
    wc.fds = (((((w.fds.set pe.inputFileDescriptor (some (.pipeEnd w.nextPipe false))).set
        pe.outputFileDescriptor (some (.pipeEnd w.nextPipe true))).set
        po.inputFileDescriptor (some (.pipeEnd (w.nextPipe + 1) false))).set
        po.outputFileDescriptor (some (.pipeEnd (w.nextPipe + 1) true))).set
        pi.inputFileDescriptor (some (.pipeEnd (w.nextPipe + 2) false))).set
        pi.outputFileDescriptor (some (.pipeEnd (w.nextPipe + 2) true)) ∧
    wc.procs = w.procs ∧ wc.nextPipe = w.nextPipe + 3 ∧
    wc.trace = w.trace ++ [.pipe 0, .pipe 0, .pipe 0] := by
  obtain ⟨a1, a2, a3, a4, a5, a6, a7, a8, a9⟩ := Pipe_open_spec w wa pe h1
  obtain ⟨b1, b2, b3, b4, b5, b6, b7, b8, b9⟩ := Pipe_open_spec wa wb po h2
  obtain ⟨c1, c2, c3, c4, c5, c6, c7, c8, c9⟩ := Pipe_open_spec wb wc pi h3
  have hlen1 : wa.fds.length = w.fds.length := by rw [a6]; simp only [List.length_set]
  have hlen2 : wb.fds.length = w.fds.length := by rw [b6]; simp only [List.length_set, hlen1]
  have e1 : pe.outputFileDescriptor < po.inputFileDescriptor := by
    by_contra hc
    exact a5 po.inputFileDescriptor (by omega) b1
  have e2 : po.outputFileDescriptor < pi.inputFileDescriptor := by
    by_contra hc
    exact b5 pi.inputFileDescriptor (by omega) c1
  rw [hlen2] at c4
  rw [hlen1] at b4
  have f1 : getFd w.fds po.inputFileDescriptor = none := by
    rw [a6, getFd_set_ne _ _ _ _ (by omega), getFd_set_ne _ _ _ _ (by omega)] at b1
    exact b1
  have f2 : getFd w.fds po.outputFileDescriptor = none := by
    rw [a6, getFd_set_ne _ _ _ _ (by omega), getFd_set_ne _ _ _ _ (by omega)] at b2
    exact b2
  have f3 : getFd w.fds pi.inputFileDescriptor = none := by
    rw [b6, a6, getFd_set_ne _ _ _ _ (by omega), getFd_set_ne _ _ _ _ (by omega),
      getFd_set_ne _ _ _ _ (by omega), getFd_set_ne _ _ _ _ (by omega)] at c1
    exact c1
  have f4 : getFd w.fds pi.outputFileDescriptor = none := by
    rw [b6, a6, getFd_set_ne _ _ _ _ (by omega), getFd_set_ne _ _ _ _ (by omega),
      getFd_set_ne _ _ _ _ (by omega), getFd_set_ne _ _ _ _ (by omega)] at c2
    exact c2
  refine ⟨⟨a3, e1, b3, e2, c3, c4⟩, ⟨a1, a2, f1, f2, f3, f4⟩, ?_, ?_, ?_, ?_⟩
  · rw [c6, b6, a6, b8, a8]
  · rw [c7, b7, a7]
  · rw [c8, b8, a8]
  · rw [c9, b9, a9]
    simp only [List.append_assoc, List.cons_append, List.nil_append]

/-- A descriptor that is closed while the standard streams are open is
above 2. -/
theorem closed_above_std (t : FdTable) (fd : Nat) (s0 s1 s2 : FileObj)
    (hs0 : getFd t 0 = some s0) (hs1 : getFd t 1 = some s1) (hs2 : getFd t 2 = some s2)
    (h : getFd t fd = none) : 3 ≤ fd := by
  by_contra hc
  have hcases : fd = 0 ∨ fd = 1 ∨ fd = 2 := by omega
  rcases hcases with h0 | h0 | h0
  · rw [h0, hs0] at h; exact Option.noConfusion h
  · rw [h0, hs1] at h; exact Option.noConfusion h
  · rw [h0, hs2] at h; exact Option.noConfusion h

theorem ensureClose_eq (fd : Nat) (w : World) :
    ensureClose fd w =
      match getFd w.fds fd with
      | some _ => Run.ret { w with fds := w.fds.set fd none, trace := w.trace ++ [.close fd] }
      | none => Run.abort (w.log (.close fd)) := by
  unfold ensureClose close
  cases getFd w.fds fd <;> rfl

theorem Process_spawn_parent (self : Process) (o : ForkOracle) (intr : Nat × Nat × Nat)
    (streams : Streams) (w wa wb wc : World) (pe po pi : Pipe)
    (h1 : Pipe_open w = Run.ret (pe, wa)) (h2 : Pipe_open wa = Run.ret (po, wb))
    (h3 : Pipe_open wb = Run.ret (pi, wc)) (hpid : 0 < o.ret) :
    Process_spawn self o intr streams w =
      Run.ret (.returned .Ok
        { _magicNumber := MAGIC_NUMBER
          _id := o.ret
          _inputFileDescriptor := pi.outputFileDescriptor
          _errorFileDescriptor := pe.inputFileDescriptor
          _outputFileDescriptor := po.inputFileDescriptor
          _exitValue := 0
          _isAlive := true
          _normallyExited := false }
        { fds := ((wc.fds.set pi.inputFileDescriptor none).set pe.outputFileDescriptor none).set
            po.outputFileDescriptor none
          procs := setProc o.ret (.running o.fate o.onTerm) w.procs
          nextPipe := w.nextPipe + 3
          trace := w.trace ++ [.pipe 0, .pipe 0, .pipe 0, .fork o.ret,
            .close pi.inputFileDescriptor, .close pe.outputFileDescriptor,
            .close po.outputFileDescriptor] }) := by
  obtain ⟨⟨e2, e3, e4, e5, e6, e7⟩, _, hfds, hprocs, hnext, htrace⟩ :=
    three_pipes w wa wb wc pe po pi h1 h2 h3
  have hne0 : o.ret ≠ 0 := by omega
  have hgt : o.ret > 0 := hpid
  have hb1 : (o.ret == -1) = false := by
    cases hb : (o.ret == -1)
    · rfl
    · have := beq_iff_eq.mp hb; omega
  have hb0 : (o.ret == 0) = false := by
    cases hb : (o.ret == 0)
    · rfl
    · have := beq_iff_eq.mp hb; omega
  unfold Process_spawn
  simp only [h1, h2, h3, ret_bind, fork, hne0, hgt, if_true, if_false, hb1, hb0,
    Bool.false_eq_true]
  simp (disch := first | omega | (simp only [List.length_set]; omega)) only [ensureClose_eq, hfds, getFd_set_ne, getFd_set_eq, List.length_set,
    ret_bind, pure_eq_ret, hprocs, hnext, htrace, List.append_assoc, List.cons_append,
    List.nil_append]
theorem moveFileDescriptor_ok (intr fd1 fd2 : Nat) (w : World) (o : FileObj)
    (h : getFd w.fds fd1 = some o) (hlt : fd2 < w.fds.length) (hne : fd1 ≠ fd2) :
    moveFileDescriptor intr fd1 fd2 w =
      Run.ret { w with
        fds := (w.fds.set fd2 (some o)).set fd1 none
        trace := w.trace ++ (List.replicate (intr + 1) (Call.dup2 fd1 fd2) ++ [.close fd1]) } := by
  induction intr generalizing w with
  | zero =>
    have hr : ((fd2 : Int) == -1) = false := by
      cases hb : ((fd2 : Int) == -1)
      · rfl
      · have := beq_iff_eq.mp hb; omega
    have h2 : getFd (w.fds.set fd2 (some o)) fd1 = some o := by
      rw [getFd_set_ne _ _ _ _ (Ne.symm hne)]; exact h
    simp only [moveFileDescriptor, dup2, h, hlt, if_true, hr, Bool.false_eq_true, if_false,
      ensureClose_eq, h2, List.replicate, List.append_assoc, List.cons_append, List.nil_append]
  | succ n ih =>
    have hstep := ih (w.log (.dup2 fd1 fd2)) h hlt
    simp only [World.log] at hstep
    simp only [moveFileDescriptor, World.log, hstep, List.append_assoc, List.cons_append,
      List.nil_append, List.replicate]

/-- A descriptor that is open differs from one that is closed. -/
theorem open_ne_closed (t : FdTable) (a b : Nat) (o : FileObj) (ha : getFd t a = some o)
    (hb : getFd t b = none) : a ≠ b := by
  intro h
  rw [h, hb] at ha
  exact Option.noConfusion ha

theorem Apart.symm {a b : Nat} (h : Apart a b) : Apart b a := Ne.symm h

theorem getFd_set_apart (t : FdTable) (i j : Nat) (v : Option FileObj) (h : Apart i j) :
    getFd (t.set i v) j = getFd t j := getFd_set_ne t i j v h

theorem Process_spawn_child (self : Process) (o : ForkOracle) (intr : Nat × Nat × Nat)
    (streams : Streams) (w wa wb wc : World) (pe po pi : Pipe) (s0 s1 s2 : FileObj)
    (h1 : Pipe_open w = Run.ret (pe, wa)) (h2 : Pipe_open wa = Run.ret (po, wb))
    (h3 : Pipe_open wb = Run.ret (pi, wc))
    (hs0 : getFd w.fds streams.stdin = some s0) (hs1 : getFd w.fds streams.stdout = some s1)
    (hs2 : getFd w.fds streams.stderr = some s2)
    (hd1 : streams.stdin ≠ streams.stdout) (hd2 : streams.stdin ≠ streams.stderr)
    (hd3 : streams.stdout ≠ streams.stderr) (hpid : o.ret = 0) :
    ∃ w1, Process_spawn self o intr streams w = Run.ret (.child w1) ∧ w1.procs = [] ∧
      getFd w1.fds streams.stdin = some (.pipeEnd (w.nextPipe + 2) false) ∧
      getFd w1.fds streams.stdout = some (.pipeEnd (w.nextPipe + 1) true) ∧
      getFd w1.fds streams.stderr = some (.pipeEnd w.nextPipe true) ∧
      getFd w1.fds pe.inputFileDescriptor = none ∧ getFd w1.fds pe.outputFileDescriptor = none ∧
      getFd w1.fds po.inputFileDescriptor = none ∧ getFd w1.fds po.outputFileDescriptor = none ∧
      getFd w1.fds pi.inputFileDescriptor = none ∧ getFd w1.fds pi.outputFileDescriptor = none ∧
      ∀ fd, fd ≠ streams.stdin → fd ≠ streams.stdout → fd ≠ streams.stderr →
        fd ≠ pe.inputFileDescriptor → fd ≠ pe.outputFileDescriptor →
        fd ≠ po.inputFileDescriptor → fd ≠ po.outputFileDescriptor →
        fd ≠ pi.inputFileDescriptor → fd ≠ pi.outputFileDescriptor →
        getFd w1.fds fd = getFd w.fds fd := by
  obtain ⟨⟨e2, e3, e4, e5, e6, e7⟩, ⟨f1, f2, f3, f4, f5, f6⟩, hfds, hprocs, hnext, htrace⟩ :=
    three_pipes w wa wb wc pe po pi h1 h2 h3
  have a1 : Apart _ _ := open_ne_closed _ _ _ _ hs0 f1
  have a2 : Apart _ _ := open_ne_closed _ _ _ _ hs0 f2
  have a3 : Apart _ _ := open_ne_closed _ _ _ _ hs0 f3
  have a4 : Apart _ _ := open_ne_closed _ _ _ _ hs0 f4
  have a5 : Apart _ _ := open_ne_closed _ _ _ _ hs0 f5
  have a6 : Apart _ _ := open_ne_closed _ _ _ _ hs0 f6
  have b1 : Apart _ _ := open_ne_closed _ _ _ _ hs1 f1
  have b2 : Apart _ _ := open_ne_closed _ _ _ _ hs1 f2
  have b3 : Apart _ _ := open_ne_closed _ _ _ _ hs1 f3
  have b4 : Apart _ _ := open_ne_closed _ _ _ _ hs1 f4
  have b5 : Apart _ _ := open_ne_closed _ _ _ _ hs1 f5
  have b6 : Apart _ _ := open_ne_closed _ _ _ _ hs1 f6
  have c1 : Apart _ _ := open_ne_closed _ _ _ _ hs2 f1
  have c2 : Apart _ _ := open_ne_closed _ _ _ _ hs2 f2
  have c3 : Apart _ _ := open_ne_closed _ _ _ _ hs2 f3
  have c4 : Apart _ _ := open_ne_closed _ _ _ _ hs2 f4
  have c5 : Apart _ _ := open_ne_closed _ _ _ _ hs2 f5
  have c6 : Apart _ _ := open_ne_closed _ _ _ _ hs2 f6
  replace hd1 : Apart _ _ := hd1
  replace hd2 : Apart _ _ := hd2
  replace hd3 : Apart _ _ := hd3
  have hl0 := getFd_lt _ _ _ hs0
  have hl1 := getFd_lt _ _ _ hs1
  have hl2 := getFd_lt _ _ _ hs2
  have hb1 : ((0 : Int) == -1) = false := by decide
  unfold Process_spawn
  simp only [h1, h2, h3, ret_bind, fork, hpid, if_true, hb1, Bool.false_eq_true, if_false,
    beq_self_eq_true]
  rw [ensureClose_open streams.stdin _ s0
    (by simp (disch := first | assumption | exact Apart.symm (by assumption) | omega |
      (simp only [List.length_set]; omega)) only [hfds, getFd_set_ne,
      getFd_set_apart, getFd_set_eq, List.length_set, hs0, hs1, hs2])]
  simp only [ret_bind]
  rw [ensureClose_open streams.stderr _ s2
    (by simp (disch := first | assumption | exact Apart.symm (by assumption) | omega |
      (simp only [List.length_set]; omega)) only [hfds, getFd_set_ne,
      getFd_set_apart, getFd_set_eq, List.length_set, hs0, hs1, hs2])]
  simp only [ret_bind]
  rw [ensureClose_open streams.stdout _ s1
    (by simp (disch := first | assumption | exact Apart.symm (by assumption) | omega |
      (simp only [List.length_set]; omega)) only [hfds, getFd_set_ne,
      getFd_set_apart, getFd_set_eq, List.length_set, hs0, hs1, hs2])]
  simp only [ret_bind]
  rw [ensureClose_open pi.outputFileDescriptor _ (.pipeEnd (w.nextPipe + 2) true)
    (by simp (disch := first | assumption | exact Apart.symm (by assumption) | omega |
      (simp only [List.length_set]; omega)) only [hfds, getFd_set_ne,
      getFd_set_apart, getFd_set_eq, List.length_set, hs0, hs1, hs2])]
  simp only [ret_bind]
  rw [ensureClose_open pe.inputFileDescriptor _ (.pipeEnd w.nextPipe false)
    (by simp (disch := first | assumption | exact Apart.symm (by assumption) | omega |
      (simp only [List.length_set]; omega)) only [hfds, getFd_set_ne,
      getFd_set_apart, getFd_set_eq, List.length_set, hs0, hs1, hs2])]
  simp only [ret_bind]
  rw [ensureClose_open po.inputFileDescriptor _ (.pipeEnd (w.nextPipe + 1) false)
    (by simp (disch := first | assumption | exact Apart.symm (by assumption) | omega |
      (simp only [List.length_set]; omega)) only [hfds, getFd_set_ne,
      getFd_set_apart, getFd_set_eq, List.length_set, hs0, hs1, hs2])]
  simp only [ret_bind]
  rw [moveFileDescriptor_ok intr.1 pi.inputFileDescriptor streams.stdin _ (.pipeEnd (w.nextPipe + 2) false)
    (by simp (disch := first | assumption | exact Apart.symm (by assumption) | omega |
      (simp only [List.length_set]; omega)) only [hfds, getFd_set_ne,
      getFd_set_apart, getFd_set_eq, List.length_set, hs0, hs1, hs2])
    (by simp only [List.length_set, hfds]; omega) (Ne.symm a5)]
  simp only [ret_bind]
  rw [moveFileDescriptor_ok intr.2.1 pe.outputFileDescriptor streams.stderr _ (.pipeEnd w.nextPipe true)
    (by simp (disch := first | assumption | exact Apart.symm (by assumption) | omega |
      (simp only [List.length_set]; omega)) only [hfds, getFd_set_ne,
      getFd_set_apart, getFd_set_eq, List.length_set, hs0, hs1, hs2])
    (by simp only [List.length_set, hfds]; omega) (Ne.symm c2)]
  simp only [ret_bind]
  rw [moveFileDescriptor_ok intr.2.2 po.outputFileDescriptor streams.stdout _ (.pipeEnd (w.nextPipe + 1) true)
    (by simp (disch := first | assumption | exact Apart.symm (by assumption) | omega |
      (simp only [List.length_set]; omega)) only [hfds, getFd_set_ne,
      getFd_set_apart, getFd_set_eq, List.length_set, hs0, hs1, hs2])
    (by simp only [List.length_set, hfds]; omega) (Ne.symm b4)]
  simp only [ret_bind]
  refine ⟨_, rfl, rfl, ?_, ?_, ?_, ?_, ?_, ?_, ?_, ?_, ?_, ?_⟩
  · simp (disch := first | assumption | exact Apart.symm (by assumption) | omega |
      (simp only [List.length_set]; omega)) only [hfds, getFd_set_ne,
      getFd_set_apart, getFd_set_eq, List.length_set, hs0, hs1, hs2]
  · simp (disch := first | assumption | exact Apart.symm (by assumption) | omega |
      (simp only [List.length_set]; omega)) only [hfds, getFd_set_ne,
      getFd_set_apart, getFd_set_eq, List.length_set, hs0, hs1, hs2]
  · simp (disch := first | assumption | exact Apart.symm (by assumption) | omega |
      (simp only [List.length_set]; omega)) only [hfds, getFd_set_ne,
      getFd_set_apart, getFd_set_eq, List.length_set, hs0, hs1, hs2]
  · simp (disch := first | assumption | exact Apart.symm (by assumption) | omega |
      (simp only [List.length_set]; omega)) only [hfds, getFd_set_ne,
      getFd_set_apart, getFd_set_eq, List.length_set, hs0, hs1, hs2]
  · simp (disch := first | assumption | exact Apart.symm (by assumption) | omega |
      (simp only [List.length_set]; omega)) only [hfds, getFd_set_ne,
      getFd_set_apart, getFd_set_eq, List.length_set, hs0, hs1, hs2]
  · simp (disch := first | assumption | exact Apart.symm (by assumption) | omega |
      (simp only [List.length_set]; omega)) only [hfds, getFd_set_ne,
      getFd_set_apart, getFd_set_eq, List.length_set, hs0, hs1, hs2]
  · simp (disch := first | assumption | exact Apart.symm (by assumption) | omega |
      (simp only [List.length_set]; omega)) only [hfds, getFd_set_ne,
      getFd_set_apart, getFd_set_eq, List.length_set, hs0, hs1, hs2]
  · simp (disch := first | assumption | exact Apart.symm (by assumption) | omega |
      (simp only [List.length_set]; omega)) only [hfds, getFd_set_ne,
      getFd_set_apart, getFd_set_eq, List.length_set, hs0, hs1, hs2]
  · simp (disch := first | assumption | exact Apart.symm (by assumption) | omega |
      (simp only [List.length_set]; omega)) only [hfds, getFd_set_ne,
      getFd_set_apart, getFd_set_eq, List.length_set, hs0, hs1, hs2]
  · intro fd g1 g2 g3 g4 g5 g6 g7 g8 g9
    replace g1 : Apart _ _ := g1
    replace g2 : Apart _ _ := g2
    replace g3 : Apart _ _ := g3
    replace g4 : Apart _ _ := g4
    replace g5 : Apart _ _ := g5
    replace g6 : Apart _ _ := g6
    replace g7 : Apart _ _ := g7
    replace g8 : Apart _ _ := g8
    replace g9 : Apart _ _ := g9
    simp (disch := first | assumption | exact Apart.symm (by assumption) | omega |
      (simp only [List.length_set]; omega)) only [hfds, getFd_set_ne,
      getFd_set_apart, getFd_set_eq, List.length_set, hs0, hs1, hs2]

theorem getFd_mem (t : FdTable) (fd : Nat) (o : FileObj) (h : getFd t fd = some o) :
    some o ∈ t := by
  unfold getFd at h
  rw [List.getD_eq_getElem?_getD] at h
  cases hg : t[fd]? with
  | none => rw [hg] at h; exact Option.noConfusion h
  | some x =>
    rw [hg] at h
    simp only [Option.getD_some] at h
    subst h
    exact List.getElem?_mem hg

theorem world0_no_pipe (fd k : Nat) (b : Bool)
    (h : getFd world0.fds fd = some (.pipeEnd k b)) : k < world0.nextPipe := by
  have hm := getFd_mem _ _ _ h
  simp [world0] at hm

theorem worldMoved_no_pipe (fd k : Nat) (b : Bool)
    (h : getFd worldMoved.fds fd = some (.pipeEnd k b)) : k < worldMoved.nextPipe := by
  have hm := getFd_mem _ _ _ h
  simp [worldMoved] at hm
theorem fork_fst (o : ForkOracle) (w : World) : (fork o w).1 = o.ret := by
  unfold fork
  split
  · next h => exact h.symm
  · split <;> rfl

theorem Process_spawn_ok_alive (self p1 : Process) (o : ForkOracle) (intr : Nat × Nat × Nat)
    (streams : Streams) (w w1 : World)
    (h : Process_spawn self o intr streams w = Run.ret (.returned .Ok p1 w1)) :
    p1._isAlive = true ∧ p1._id = o.ret ∧ p1._magicNumber = MAGIC_NUMBER := by
  unfold Process_spawn at h
  simp only [bind_eq_ret] at h
  obtain ⟨⟨pe, wa⟩, _, ⟨po, wb⟩, _, ⟨pi, wc⟩, _, h⟩ := h
  simp only at h
  split at h
  · simp only [pure_eq_ret, Run.ret.injEq, Spawned.returned.injEq] at h
    exact Error.noConfusion h.1
  · split at h
    · simp only [bind_eq_ret, pure_eq_ret, Run.ret.injEq] at h
      obtain ⟨_, _, _, _, _, _, _, _, _, _, _, _, _, _, _, _, _, _, h⟩ := h
      exact Spawned.noConfusion h
    · simp only [bind_eq_ret, pure_eq_ret, Run.ret.injEq, Spawned.returned.injEq] at h
      obtain ⟨_, _, _, _, _, _, _, hp, _⟩ := h
      subst hp
      exact ⟨rfl, fork_fst o wc, rfl⟩
/-- The three descriptors of a record that `Process_spawn` returned with `Ok`
are pairwise distinct, whatever the descriptor table was. -/
theorem Process_spawn_ok_distinct (self p1 : Process) (o : ForkOracle)
    (intr : Nat × Nat × Nat) (streams : Streams) (w w1 : World)
    (h : Process_spawn self o intr streams w = Run.ret (.returned .Ok p1 w1)) :
    p1._inputFileDescriptor ≠ p1._errorFileDescriptor ∧
      p1._inputFileDescriptor ≠ p1._outputFileDescriptor ∧
      p1._errorFileDescriptor ≠ p1._outputFileDescriptor := by
  unfold Process_spawn at h
  simp only [bind_eq_ret] at h
  obtain ⟨⟨pe, wa⟩, g1, ⟨po, wb⟩, g2, ⟨pi, wc⟩, g3, h⟩ := h
  obtain ⟨⟨e2, e3, e4, e5, e6, e7⟩, _⟩ := three_pipes w wa wb wc pe po pi g1 g2 g3
  simp only at h
  split at h
  · simp only [pure_eq_ret, Run.ret.injEq, Spawned.returned.injEq] at h
    exact Error.noConfusion h.1
  · split at h
    · simp only [bind_eq_ret, pure_eq_ret, Run.ret.injEq] at h
      obtain ⟨_, _, _, _, _, _, _, _, _, _, _, _, _, _, _, _, _, _, h⟩ := h
      exact Spawned.noConfusion h
    · simp only [bind_eq_ret, pure_eq_ret, Run.ret.injEq, Spawned.returned.injEq] at h
      obtain ⟨_, _, _, _, _, _, _, hp, _⟩ := h
      subst hp
      refine ⟨?_, ?_, ?_⟩ <;> simp only [ne_eq] <;> omega
theorem setProc_self (pid : Int) (c : Child) (l : List (Int × Child))
    (h : getProc pid l = some c) : setProc pid c l = l := by
  induction l with
  | nil => exact Option.noConfusion h
  | cons hd tl ih =>
    obtain ⟨q, d⟩ := hd
    by_cases hq : q = pid
    · simp only [getProc, hq, if_true, Option.some.injEq] at h
      simp only [setProc, hq, if_true, h]
    · simp only [getProc, hq, if_false] at h
      simp only [setProc, hq, if_false, ih h]

theorem setProc_setProc (pid : Int) (c d : Child) (l : List (Int × Child)) :
    setProc pid c (setProc pid d l) = setProc pid c l := by
  induction l with
  | nil => simp only [setProc, if_true]
  | cons hd tl ih =>
    obtain ⟨q, e⟩ := hd
    by_cases hq : q = pid
    · simp only [setProc, hq, if_true]
    · simp only [setProc, hq, if_false, ih]

theorem kill_term_running (pid : Int) (w : World) (fate : Option (Nat × Termination))
    (onTerm : Option Nat) (h : getProc pid w.procs = some (.running fate onTerm)) :
    kill pid SIGTERM w =
      (0, { w with
        procs := setProc pid (.running (fateAfterTerm fate onTerm) onTerm) w.procs
        trace := w.trace ++ [.kill pid SIGTERM] }) := by
  have hne : ¬ (SIGTERM = SIGKILL) := by decide
  cases onTerm with
  | none =>
    simp only [kill, h, hne, if_false, if_true, World.log, fateAfterTerm,
      setProc_self _ _ _ h]
  | some d =>
    simp only [kill, h, hne, if_false, if_true, fateAfterTerm]
theorem cancelLoop_never (pid s : Int) (w : World) (ot : Option Nat)
    (h : getProc pid w.procs = some (.running none ot)) :
    cancelLoop 3 pid s w =
      Run.ret (s, { w with
        trace := w.trace ++
          (if stillRunning s then
            [.waitpid pid WNOHANG 0, .sleep 1, .waitpid pid WNOHANG 0, .sleep 1,
             .waitpid pid WNOHANG 0, .sleep 1]
           else [.waitpid pid WNOHANG 0, .waitpid pid WNOHANG 0, .waitpid pid WNOHANG 0]) }) := by
  have h0 : decide ((0 : Int) ≥ 0) = true := by decide
  cases hnt : stillRunning s with
  | true =>
    have hnt2 := hnt
    simp only [stillRunning] at hnt2
    simp only [cancelLoop, waitpid, h, World.log, sleep, if_true, ret_bind, ensure, h0, hnt2,
      List.append_assoc, List.cons_append, List.nil_append]
  | false =>
    have hnt2 := hnt
    simp only [stillRunning] at hnt2
    simp only [cancelLoop, waitpid, h, World.log, sleep, if_true, ret_bind, ensure, h0, hnt2,
      Bool.false_eq_true, if_false, List.append_assoc, List.cons_append, List.nil_append]

theorem cancelLoop_late (pid s : Int) (w : World) (ot : Option Nat) (k : Nat) (t : Termination)
    (h : getProc pid w.procs = some (.running (some (k + 3, t)) ot)) :
    cancelLoop 3 pid s w =
      Run.ret (s, { w with
        procs := setProc pid (.running (some (k, t)) ot) w.procs
        trace := w.trace ++
          (if stillRunning s then
            [.waitpid pid WNOHANG 0, .sleep 1, .waitpid pid WNOHANG 0, .sleep 1,
             .waitpid pid WNOHANG 0, .sleep 1]
           else [.waitpid pid WNOHANG 0, .waitpid pid WNOHANG 0, .waitpid pid WNOHANG 0]) }) := by
  have h0 : decide ((0 : Int) ≥ 0) = true := by decide
  cases hnt : stillRunning s with
  | true =>
    have hnt2 := hnt
    simp only [stillRunning] at hnt2
    simp only [cancelLoop, waitpid, h, World.log, sleep, if_true, ret_bind, ensure, h0, hnt2,
      getProc_setProc_same, setProc_setProc,
      List.append_assoc, List.cons_append, List.nil_append]
  | false =>
    have hnt2 := hnt
    simp only [stillRunning] at hnt2
    simp only [cancelLoop, waitpid, h, World.log, sleep, if_true, ret_bind, ensure, h0, hnt2,
      getProc_setProc_same, setProc_setProc,
      Bool.false_eq_true, if_false, List.append_assoc, List.cons_append, List.nil_append]
theorem cancelLoop_reaped (n : Nat) (pid s : Int) (w : World) (t : Termination)
    (h : getProc pid w.procs = some (.reaped t)) :
    ∃ w1, cancelLoop (n + 1) pid s w = Run.abort w1 := by
  have h0 : decide ((-1 : Int) ≥ 0) = false := by decide
  refine ⟨w.log (.waitpid pid WNOHANG (-1)), ?_⟩
  simp only [cancelLoop, waitpid, h, ret_bind, ensure, h0, Bool.false_eq_true, if_false,
    abort_bind]

theorem cancelLoop_step (n : Nat) (pid s : Int) (w : World) (ot : Option Nat) (k : Nat)
    (t : Termination) (h : getProc pid w.procs = some (.running (some (k + 1, t)) ot)) :
    ∃ w2, cancelLoop (n + 1) pid s w = cancelLoop n pid s w2 ∧
      getProc pid w2.procs = some (.running (some (k, t)) ot) := by
  have h0 : decide ((0 : Int) ≥ 0) = true := by decide
  cases hnt : (!WIFEXITED s && !WIFSIGNALED s) with
  | true =>
    refine ⟨sleep 1 { w with
      procs := setProc pid (.running (some (k, t)) ot) w.procs
      trace := w.trace ++ [.waitpid pid WNOHANG 0] }, ?_, ?_⟩
    · simp only [cancelLoop, waitpid, h, if_true, ret_bind, ensure, h0, hnt]
    · simp only [sleep, World.log, getProc_setProc_same]
  | false =>
    refine ⟨{ w with
      procs := setProc pid (.running (some (k, t)) ot) w.procs
      trace := w.trace ++ [.waitpid pid WNOHANG 0] }, ?_, ?_⟩
    · simp only [cancelLoop, waitpid, h, if_true, ret_bind, ensure, h0, hnt, Bool.false_eq_true,
        if_false]
    · simp only [getProc_setProc_same]

theorem cancelLoop_reaps (n : Nat) (pid s : Int) (w : World) (t : Termination) (hpid : 0 < pid)
    (h : getProc pid w.procs = some (.zombie t) ∨
      ∃ ot, getProc pid w.procs = some (.running (some (0, t)) ot)) :
    ∃ w2, cancelLoop (n + 1) pid s w = cancelLoop n pid t.status w2 ∧
      getProc pid w2.procs = some (.reaped t) := by
  have h0 : decide (pid ≥ 0) = true := by
    simp only [ge_iff_le, decide_eq_true_eq]; omega
  have key : waitpid pid s WNOHANG w =
      Run.ret (pid, t.status, { w with
        procs := setProc pid (.reaped t) w.procs
        trace := w.trace ++ [.waitpid pid WNOHANG pid] }) := by
    rcases h with h | ⟨ot, h⟩
    · simp only [waitpid, h]
    · simp only [waitpid, h, if_true]
  cases hnt : (!WIFEXITED t.status && !WIFSIGNALED t.status) with
  | true =>
    refine ⟨sleep 1 { w with
      procs := setProc pid (.reaped t) w.procs
      trace := w.trace ++ [.waitpid pid WNOHANG pid] }, ?_, ?_⟩
    · simp only [cancelLoop, key, ret_bind, ensure, h0, if_true, hnt]
    · simp only [sleep, World.log, getProc_setProc_same]
  | false =>
    refine ⟨{ w with
      procs := setProc pid (.reaped t) w.procs
      trace := w.trace ++ [.waitpid pid WNOHANG pid] }, ?_, ?_⟩
    · simp only [cancelLoop, key, ret_bind, ensure, h0, if_true, hnt, Bool.false_eq_true,
        if_false]
    · simp only [getProc_setProc_same]

/-- When the child is a zombie, or running but dying within the three polls,
the polling loop ends the program or comes back with the child reaped. -/
theorem cancelLoop_early (pid s : Int) (w : World) (t : Termination) (hpid : 0 < pid)
    (h : getProc pid w.procs = some (.zombie t) ∨
      ∃ ot k, k < 3 ∧ getProc pid w.procs = some (.running (some (k, t)) ot)) :
    (∃ w1, cancelLoop 3 pid s w = Run.abort w1) ∨
      ∃ st wl, cancelLoop 3 pid s w = Run.ret (st, wl) ∧
        getProc pid wl.procs = some (.reaped t) := by
  have zero : ∀ w0 : World, (getProc pid w0.procs = some (.zombie t) ∨
      ∃ ot, getProc pid w0.procs = some (.running (some (0, t)) ot)) →
      ∀ s0 n, ∃ w1, cancelLoop (n + 2) pid s0 w0 = Run.abort w1 := by
    intro w0 hw0 s0 n
    obtain ⟨w2, e2, g2⟩ := cancelLoop_reaps (n + 1) pid s0 w0 t hpid hw0
    obtain ⟨w3, e3⟩ := cancelLoop_reaped n pid t.status w2 t g2
    exact ⟨w3, by rw [e2, e3]⟩
  rcases h with h | ⟨ot, k, hk, h⟩
  · exact Or.inl (zero w (Or.inl h) s 1)
  · match k, hk, h with
    | 0, _, h => exact Or.inl (zero w (Or.inr ⟨ot, h⟩) s 1)
    | 1, _, h =>
      obtain ⟨w2, e2, g2⟩ := cancelLoop_step 2 pid s w ot 0 t h
      obtain ⟨w3, e3⟩ := zero w2 (Or.inr ⟨ot, g2⟩) s 0
      exact Or.inl ⟨w3, by rw [e2, e3]⟩
    | 2, _, h =>
      obtain ⟨w2, e2, g2⟩ := cancelLoop_step 2 pid s w ot 1 t h
      obtain ⟨w3, e3, g3⟩ := cancelLoop_step 1 pid s w2 ot 0 t g2
      obtain ⟨w4, e4, g4⟩ := cancelLoop_reaps 0 pid s w3 t hpid (Or.inr ⟨ot, g3⟩)
      refine Or.inr ⟨t.status, w4, ?_, g4⟩
      rw [e2, e3, e4]
      rfl
theorem kill_kill_running (pid : Int) (w : World) (fate : Option (Nat × Termination))
    (onTerm : Option Nat) (h : getProc pid w.procs = some (.running fate onTerm)) :
    kill pid SIGKILL w =
      (0, { w with
        procs := setProc pid (.zombie (.signaled SIGKILL false)) w.procs
        trace := w.trace ++ [.kill pid SIGKILL] }) := by
  simp only [kill, h, if_true]

/-- The part of `Process_cancel` after the polling loop came back with
`(st, wl)`. -/
theorem Process_cancel_unfold (self : Process) (status : Int) (w wk : World)
    (hmagic : self._magicNumber = MAGIC_NUMBER) (halive : self._isAlive = true)
    (hk : kill self._id SIGTERM w = (0, wk)) :
    Process_cancel self status w =
      (cancelLoop 3 self._id status wk >>= fun r =>
        if (!WIFEXITED r.1 && !WIFSIGNALED r.1) = true then
          ensure ((kill self._id SIGKILL r.2).1 == 0) (kill self._id SIGKILL r.2).2 >>= fun y =>
            Process_wait self none y >>= fun d =>
              assert (d.1 == Error.Ok) d.2.2.2 >>= fun w5 => Run.ret (d.2.1, w5)
        else
          Process_wait self none r.2 >>= fun d =>
            assert (d.1 == Error.Ok) d.2.2.2 >>= fun w5 => Run.ret (d.2.1, w5)) := by
  unfold Process_cancel
  simp only [hmagic, halive, assert, beq_self_eq_true, if_true, ret_bind, hk, ensure,
    pure_eq_ret]

theorem awaited_zombie (pid : Int) (w : World) (t : Termination)
    (h : getProc pid w.procs = some (.zombie t)) : awaited pid w = some t := by
  simp only [awaited, h]

theorem awaited_running (pid : Int) (w : World) (k : Nat) (t : Termination) (ot : Option Nat)
    (h : getProc pid w.procs = some (.running (some (k, t)) ot)) : awaited pid w = some t := by
  simp only [awaited, h]

/-- A `Process_cancel` on a valid live record returns whenever the child's
behaviour lets it: with the record and world determined by the termination
`observedByCancel` names. -/
theorem Process_cancel_returns (self : Process) (status : Int) (w : World) (t : Termination)
    (hmagic : self._magicNumber = MAGIC_NUMBER) (halive : self._isAlive = true)
    (hobs : observedByCancel self._id status w = some t)
    (hst : WIFEXITED t.status = true ∨ WIFSIGNALED t.status = true) :
    Process_cancel self status w =
      Run.ret (recorded self t.status,
        { w with
          procs := setProc self._id (.reaped t) w.procs
          trace := w.trace ++ cancelCalls self._id status }) := by
  unfold observedByCancel at hobs
  cases hc : getProc self._id w.procs with
  | none => simp only [hc] at hobs; exact Option.noConfusion hobs
  | some c =>
    cases c with
    | zombie t0 => simp only [hc] at hobs; exact Option.noConfusion hobs
    | reaped t0 => simp only [hc] at hobs; exact Option.noConfusion hobs
    | running fate onTerm =>
      simp only [hc] at hobs
      have hk := kill_term_running self._id w fate onTerm hc
      rw [Process_cancel_unfold self status w _ hmagic halive hk]
      have hs9 : WIFEXITED (Termination.signaled SIGKILL false).status = true ∨
          WIFSIGNALED (Termination.signaled SIGKILL false).status = true := by decide
      cases hF : fateAfterTerm fate onTerm with
      | none =>
        simp only [hF] at hobs
        cases hnt : stillRunning status with
        | false => simp only [hnt, Bool.false_eq_true, if_false] at hobs
                   exact Option.noConfusion hobs
        | true =>
          simp only [hnt, if_true, Option.some.injEq] at hobs
          subst hobs
          have hnt2 := hnt
          simp only [stillRunning] at hnt2
          rw [cancelLoop_never _ _ _ onTerm (by simp only [getProc_setProc_same])]
          simp only [ret_bind, hnt2, if_true, hnt]
          rw [kill_kill_running _ _ none onTerm (by simp only [getProc_setProc_same])]
          simp only [ensure, beq_self_eq_true, if_true, ret_bind]
          rw [Process_wait_of_awaited self none _ _ hmagic halive
            (awaited_zombie _ _ _ (by simp only [getProc_setProc_same])) hs9]
          simp only [ret_bind, assert, beq_self_eq_true, if_true, reapedWorld, setProc_setProc,
            cancelCalls, hnt, List.append_assoc, List.cons_append, List.nil_append, WNOHANG]
      | some kt =>
        obtain ⟨k, t1⟩ := kt
        simp only [hF] at hobs
        by_cases hk3 : k < 3
        · simp only [hk3, if_true] at hobs
          exact Option.noConfusion hobs
        · simp only [hk3, if_false] at hobs
          obtain ⟨j, rfl⟩ : ∃ j, k = j + 3 := ⟨k - 3, by omega⟩
          rw [cancelLoop_late _ _ _ onTerm j t1 (by simp only [getProc_setProc_same])]
          cases hnt : stillRunning status with
          | true =>
            simp only [hnt, if_true, Option.some.injEq] at hobs
            subst hobs
            have hnt2 := hnt
            simp only [stillRunning] at hnt2
            simp only [ret_bind, hnt2, if_true, hnt]
            rw [kill_kill_running _ _ (some (j, t1)) onTerm
              (by simp only [getProc_setProc_same])]
            simp only [ensure, beq_self_eq_true, if_true, ret_bind]
            rw [Process_wait_of_awaited self none _ _ hmagic halive
              (awaited_zombie _ _ _ (by simp only [getProc_setProc_same])) hs9]
            simp only [ret_bind, assert, beq_self_eq_true, if_true, reapedWorld,
              setProc_setProc, cancelCalls, hnt, List.append_assoc, List.cons_append,
              List.nil_append, WNOHANG]
          | false =>
            simp only [hnt, Bool.false_eq_true, if_false, Option.some.injEq] at hobs
            subst hobs
            have hnt2 := hnt
            simp only [stillRunning] at hnt2
            simp only [ret_bind, hnt2, Bool.false_eq_true, if_false, hnt]
            rw [Process_wait_of_awaited self none _ _ hmagic halive
              (awaited_running _ _ j _ onTerm (by simp only [getProc_setProc_same])) hst]
            simp only [ret_bind, assert, beq_self_eq_true, if_true, reapedWorld,
              setProc_setProc, cancelCalls, hnt, Bool.false_eq_true, if_false,
              List.append_assoc, List.cons_append, List.nil_append, WNOHANG]
theorem cancel_tail_inv (self p1 : Process) (y w1 : World) (hpid : 0 < self._id)
    (h : (Process_wait self none y >>= fun d =>
      assert (d.1 == Error.Ok) d.2.2.2 >>= fun w5 => Run.ret (d.2.1, w5)) = Run.ret (p1, w1)) :
    ∃ t, awaited self._id y = some t ∧
      (WIFEXITED t.status = true ∨ WIFSIGNALED t.status = true) := by
  simp only [bind_eq_ret, assert_eq_ret, Run.ret.injEq, Prod.mk.injEq] at h
  obtain ⟨⟨e, p2, o2, w2⟩, hw, w4, ⟨he, hw4⟩, hp, hw1⟩ := h
  simp only [beq_iff_eq] at he
  subst he
  rcases Process_wait_inv self p2 none o2 y w2 Error.Ok hw with h1 | h1
  · exact Error.noConfusion h1.2.1
  · obtain ⟨_, _, st, hwp, hst, _, _⟩ := h1
    obtain ⟨t, haw, hstt, _⟩ := waitpid_blocking_inv self._id 0 st y w2 hpid hwp
    exact ⟨t, haw, by rw [← hstt]; exact hst⟩

theorem awaited_reaped (pid : Int) (w : World) (t : Termination)
    (h : getProc pid w.procs = some (.reaped t)) : awaited pid w = none := by
  simp only [awaited, h]

theorem awaited_never (pid : Int) (w : World) (ot : Option Nat)
    (h : getProc pid w.procs = some (.running none ot)) : awaited pid w = none := by
  simp only [awaited, h]

/-- After the child has been reaped nothing of `Process_cancel` that follows the
polling loop returns. -/
theorem cancel_rest_reaped (self p1 : Process) (st : Int) (wl w1 : World) (t : Termination)
    (hpid : 0 < self._id) (hr : getProc self._id wl.procs = some (.reaped t))
    (h : (if (!WIFEXITED st && !WIFSIGNALED st) = true then
          ensure ((kill self._id SIGKILL wl).1 == 0) (kill self._id SIGKILL wl).2 >>= fun y =>
            Process_wait self none y >>= fun d =>
              assert (d.1 == Error.Ok) d.2.2.2 >>= fun w5 => Run.ret (d.2.1, w5)
        else
          Process_wait self none wl >>= fun d =>
            assert (d.1 == Error.Ok) d.2.2.2 >>= fun w5 => Run.ret (d.2.1, w5)) =
        Run.ret (p1, w1)) : False := by
  have hm1 : ((-1 : Int) == 0) = false := by decide
  split at h
  · simp only [kill, hr, World.log, ensure, hm1, Bool.false_eq_true, if_false, abort_bind] at h
    exact Run.noConfusion h
  · obtain ⟨t2, haw, _⟩ := cancel_tail_inv self p1 wl w1 hpid h
    rw [awaited_reaped _ _ _ hr] at haw
    exact Option.noConfusion haw
/-- A `Process_cancel` that returns, on the record of a child, has observed the
termination `observedByCancel` names and leaves the record and world that go
with it. -/
theorem Process_cancel_ret_inv (self p1 : Process) (status : Int) (w w1 : World)
    (hpid : 0 < self._id) (h : Process_cancel self status w = Run.ret (p1, w1)) :
    self._magicNumber = MAGIC_NUMBER ∧ self._isAlive = true ∧
      ∃ t, observedByCancel self._id status w = some t ∧
        (WIFEXITED t.status = true ∨ WIFSIGNALED t.status = true) ∧
        p1 = recorded self t.status ∧
        w1 = { w with
          procs := setProc self._id (.reaped t) w.procs
          trace := w.trace ++ cancelCalls self._id status } := by
  have h0 := h
  unfold Process_cancel at h0
  simp only [bind_eq_ret, assert_eq_ret, ensure_eq_ret, pure_eq_ret] at h0
  obtain ⟨wA, ⟨hm, hwA⟩, wB, ⟨halive, hwB⟩, _, ⟨hk0, _⟩, _⟩ := h0
  rw [hwB, hwA] at hk0
  simp only [beq_iff_eq] at hm hk0
  refine ⟨hm, halive, ?_⟩
  have finish : ∀ t, observedByCancel self._id status w = some t →
      (WIFEXITED t.status = true ∨ WIFSIGNALED t.status = true) →
      ∃ t, observedByCancel self._id status w = some t ∧
        (WIFEXITED t.status = true ∨ WIFSIGNALED t.status = true) ∧
        p1 = recorded self t.status ∧
        w1 = { w with
          procs := setProc self._id (.reaped t) w.procs
          trace := w.trace ++ cancelCalls self._id status } := by
    intro t hobs hst
    have e := Process_cancel_returns self status w t hm halive hobs hst
    rw [e] at h
    simp only [Run.ret.injEq, Prod.mk.injEq] at h
    exact ⟨t, hobs, hst, h.1.symm, h.2.symm⟩
  have hs9 : WIFEXITED (Termination.signaled SIGKILL false).status = true ∨
      WIFSIGNALED (Termination.signaled SIGKILL false).status = true := by decide
  have hm1 : ¬ ((-1 : Int) = 0) := by decide
  have hne : ¬ (SIGTERM = SIGKILL) := by decide
  cases hc : getProc self._id w.procs with
  | none =>
    simp only [kill, hc] at hk0
    exact absurd hk0 hm1
  | some c =>
    cases c with
    | reaped t0 =>
      simp only [kill, hc] at hk0
      exact absurd hk0 hm1
    | zombie t0 =>
      exfalso
      have hk : kill self._id SIGTERM w = (0, w.log (.kill self._id SIGTERM)) := by
        simp only [kill, hc]
      rw [Process_cancel_unfold self status w _ hm halive hk] at h
      rcases cancelLoop_early self._id status (w.log (.kill self._id SIGTERM)) t0 hpid
        (Or.inl hc) with ⟨wa, ha⟩ | ⟨st, wl, hl, hr⟩
      · rw [ha] at h
        exact Run.noConfusion h
      · rw [hl] at h
        simp only [ret_bind] at h
        exact cancel_rest_reaped self p1 st wl w1 t0 hpid hr h
    | running fate onTerm =>
      have hk := kill_term_running self._id w fate onTerm hc
      rw [Process_cancel_unfold self status w _ hm halive hk] at h
      cases hF : fateAfterTerm fate onTerm with
      | none =>
        cases hnt : stillRunning status with
        | true =>
          have hobs : observedByCancel self._id status w =
              some (.signaled SIGKILL false) := by
            simp only [observedByCancel, hc, hF, hnt, if_true]
          exact finish _ hobs hs9
        | false =>
          exfalso
          have hnt2 := hnt
          simp only [stillRunning] at hnt2
          rw [cancelLoop_never _ _ _ onTerm (by simp only [hF, getProc_setProc_same])] at h
          simp only [ret_bind, hnt2, Bool.false_eq_true, if_false] at h
          obtain ⟨t2, haw, _⟩ := cancel_tail_inv self p1 _ w1 hpid h
          rw [awaited_never _ _ onTerm (by simp only [hF, getProc_setProc_same])] at haw
          exact Option.noConfusion haw
      | some kt =>
        obtain ⟨k, t1⟩ := kt
        by_cases hk3 : k < 3
        · exfalso
          rw [hF] at h
          rcases cancelLoop_early self._id status
            { w with
              procs := setProc self._id (.running (some (k, t1)) onTerm) w.procs
              trace := w.trace ++ [.kill self._id SIGTERM] } t1 hpid
            (Or.inr ⟨onTerm, k, hk3, getProc_setProc_same _ _ _⟩) with
            ⟨wa, ha⟩ | ⟨st, wl, hl, hr⟩
          · rw [ha] at h
            exact Run.noConfusion h
          · rw [hl] at h
            simp only [ret_bind] at h
            exact cancel_rest_reaped self p1 st wl w1 t1 hpid hr h
        · cases hnt : stillRunning status with
          | true =>
            have hobs : observedByCancel self._id status w =
                some (.signaled SIGKILL false) := by
              simp only [observedByCancel, hc, hF, hk3, hnt, if_true, if_false]
            exact finish _ hobs hs9
          | false =>
            have hobs : observedByCancel self._id status w = some t1 := by
              simp only [observedByCancel, hc, hF, hk3, hnt, Bool.false_eq_true, if_false]
            have hnt2 := hnt
            simp only [stillRunning] at hnt2
            obtain ⟨j, rfl⟩ : ∃ j, k = j + 3 := ⟨k - 3, by omega⟩
            rw [cancelLoop_late _ _ _ onTerm j t1
              (by simp only [hF, getProc_setProc_same])] at h
            simp only [ret_bind, hnt2, Bool.false_eq_true, if_false] at h
            obtain ⟨t2, haw, hst⟩ := cancel_tail_inv self p1 _ w1 hpid h
            rw [awaited_running _ _ j t1 onTerm (by simp only [getProc_setProc_same])] at haw
            simp only [Option.some.injEq] at haw
            subst haw
            exact finish _ hobs hst
/-! ## The claims -/

/-- C1: for a valid record with `_isAlive = true` whose child the OS reports as
terminated, `Process_wait` returns `Ok`; after a normal exit with status `N`
(at most 255) it leaves `_normallyExited = true` and `_exitValue = N`, after
a death by signal `S` it leaves `_normallyExited = false` and
`_exitValue = S`; a supplied output record holds these two values, the other
fields of the record are kept, and `_isAlive` is false. -/
theorem Process_wait_records_termination (self : Process) (out : Option Process_ExitInfo)
    (w : World) (t : Termination) (hmagic : self._magicNumber = MAGIC_NUMBER)
    (halive : self._isAlive = true) (haw : awaited self._id w = some t) :
    (∀ N : Nat, N ≤ 255 → t = .exited N →
      Process_wait self out w =
        Run.ret (Error.Ok,
          { self with _normallyExited := true, _exitValue := N, _isAlive := false },
          out.map (fun _ => { normallyExited := true, exitValue := N }),
          reapedWorld self._id t w)) ∧
    (∀ (S : Nat) (core : Bool), 1 ≤ S → S ≤ 126 → t = .signaled S core →
      Process_wait self out w =
        Run.ret (Error.Ok,
          { self with _normallyExited := false, _exitValue := S, _isAlive := false },
          out.map (fun _ => { normallyExited := false, exitValue := S }),
          reapedWorld self._id t w)) := by
  constructor
  · intro N hN ht
    subst ht
    obtain ⟨h1, h2⟩ := status_exited N hN
    rw [Process_wait_of_awaited self out w _ hmagic halive haw (Or.inl h1)]
    simp [recorded, h1, h2]
  · intro S core hS1 hS2 ht
    subst ht
    obtain ⟨h1, h2, h3⟩ := status_signaled S core hS1 hS2
    rw [Process_wait_of_awaited self out w _ hmagic halive haw (Or.inr h2)]
    simp [recorded, h1, h3]

/-- C1 at a child that called `exit(127)`, with an output record supplied. -/
theorem Process_wait_records_termination_witness :
    Process_wait liveProcess (some ⟨false, 77⟩) (worldWith (.zombie (.exited 127))) =
      Run.ret (Error.Ok,
        { liveProcess with _normallyExited := true, _exitValue := 127, _isAlive := false },
        some { normallyExited := true, exitValue := 127 },
        reapedWorld 42 (.exited 127) (worldWith (.zombie (.exited 127)))) :=
  (Process_wait_records_termination liveProcess (some ⟨false, 77⟩)
    (worldWith (.zombie (.exited 127))) (.exited 127) rfl rfl rfl).1 127 (by decide) rfl

/-- C2: on a valid record whose `_isAlive` is false `Process_wait` returns
`ProcessInvalidState` and leaves the record, the output record and the world
(so also the log of system calls) as they were. -/
theorem Process_wait_not_alive (self : Process) (out : Option Process_ExitInfo) (w : World)
    (hmagic : self._magicNumber = MAGIC_NUMBER) (hdead : self._isAlive = false) :
    Process_wait self out w = Run.ret (Error.ProcessInvalidState, self, out, w) := by
  simp [Process_wait, hmagic, hdead, assert]

/-- C2 at a record already waited for. -/
theorem Process_wait_not_alive_witness :
    Process_wait deadProcess (some ⟨false, 77⟩) (worldWith (.reaped (.exited 1))) =
      Run.ret (Error.ProcessInvalidState, deadProcess, some ⟨false, 77⟩,
        worldWith (.reaped (.exited 1))) :=
  Process_wait_not_alive deadProcess (some ⟨false, 77⟩) (worldWith (.reaped (.exited 1))) rfl rfl

/-- C8: on a valid record with `_isAlive = false` whose three descriptors are
open (and, coming from three pipes, distinct) `Process_teardown` returns
with the all-zero record; it closes the input, error and output descriptor in
that order, and every other descriptor and the children are as before. -/
theorem Process_teardown_closes_and_zeroes (self : Process) (w : World) (oi oe oo : FileObj)
    (hmagic : self._magicNumber = MAGIC_NUMBER) (hdead : self._isAlive = false)
    (hin : getFd w.fds self._inputFileDescriptor = some oi)
    (herr : getFd w.fds self._errorFileDescriptor = some oe)
    (hout : getFd w.fds self._outputFileDescriptor = some oo)
    (h1 : self._inputFileDescriptor ≠ self._errorFileDescriptor)
    (h2 : self._inputFileDescriptor ≠ self._outputFileDescriptor)
    (h3 : self._errorFileDescriptor ≠ self._outputFileDescriptor) :
    ∃ w1, Process_teardown self w = Run.ret (Process.zero, w1) ∧
      Process.zero = { _magicNumber := 0, _id := 0, _inputFileDescriptor := 0,
                       _errorFileDescriptor := 0, _outputFileDescriptor := 0, _exitValue := 0,
                       _isAlive := false, _normallyExited := false } ∧
      getFd w1.fds self._inputFileDescriptor = none ∧
      getFd w1.fds self._errorFileDescriptor = none ∧
      getFd w1.fds self._outputFileDescriptor = none ∧
      (∀ fd, fd ≠ self._inputFileDescriptor → fd ≠ self._errorFileDescriptor →
        fd ≠ self._outputFileDescriptor → getFd w1.fds fd = getFd w.fds fd) ∧
      w1.procs = w.procs ∧
      w1.trace = w.trace ++ [.close self._inputFileDescriptor, .close self._errorFileDescriptor,
        .close self._outputFileDescriptor] := by
  have hli := getFd_lt _ _ _ hin
  have hle := getFd_lt _ _ _ herr
  have hlo := getFd_lt _ _ _ hout
  have herr1 : getFd (w.fds.set self._inputFileDescriptor none) self._errorFileDescriptor
      = some oe := by
    rw [getFd_set, if_neg (fun h => h1 h.1), herr]
  have hout1 : getFd ((w.fds.set self._inputFileDescriptor none).set
      self._errorFileDescriptor none) self._outputFileDescriptor = some oo := by
    rw [getFd_set, if_neg (fun h => h3 h.1), getFd_set, if_neg (fun h => h2 h.1), hout]
  refine ⟨{ w with
      fds := ((w.fds.set self._inputFileDescriptor none).set self._errorFileDescriptor none).set
        self._outputFileDescriptor none
      trace := w.trace ++ [.close self._inputFileDescriptor, .close self._errorFileDescriptor,
        .close self._outputFileDescriptor] }, ?_, rfl, ?_, ?_, ?_, ?_, rfl, rfl⟩
  · unfold Process_teardown
    simp only [hmagic, hdead, assert, beq_self_eq_true, if_true, ret_bind, Bool.not_false,
      pure_eq_ret]
    rw [ensureClose_open _ _ oi hin]
    simp only [ret_bind]
    rw [ensureClose_open _ _ oe herr1]
    simp only [ret_bind]
    rw [ensureClose_open _ _ oo hout1]
    simp only [ret_bind, List.append_assoc, List.singleton_append, List.cons_append,
      List.nil_append]
  · simp [getFd_set, hli, Ne.symm h1, Ne.symm h2]
  · simp [getFd_set, hle, Ne.symm h3]
  · simp [getFd_set, hlo]
  · intro fd hi he ho
    simp [getFd_set, Ne.symm hi, Ne.symm he, Ne.symm ho]

/-- C8 at the record `deadProcess`, whose descriptors 8, 3 and 5 are open. -/
theorem Process_teardown_closes_and_zeroes_witness :
    ∃ w1, Process_teardown deadProcess (worldWith (.reaped (.exited 1))) =
        Run.ret (Process.zero, w1) ∧
      getFd w1.fds 8 = none ∧ getFd w1.fds 3 = none ∧ getFd w1.fds 5 = none ∧
      w1.trace = [.close 8, .close 3, .close 5] := by
  obtain ⟨w1, h, _, h8, h3, h5, _, _, ht⟩ :=
    Process_teardown_closes_and_zeroes deadProcess (worldWith (.reaped (.exited 1)))
      (.pipeEnd 2 true) (.pipeEnd 0 false) (.pipeEnd 1 false) rfl rfl rfl rfl rfl
      (by decide) (by decide) (by decide)
  exact ⟨w1, h, h8, h3, h5, ht⟩

/-- C3: on a valid record, with an output record supplied, `Process_exitInfo`
returns; it returns `ProcessInvalidState` exactly when `_isAlive` is true,
and then leaves the output record as it was; otherwise it returns `Ok` and
the output record holds `_normallyExited` and `_exitValue`, which are the
values a `Process_wait` that returned `Ok` left in the record (and in its own
output record).  The record and the world are unchanged in both cases. -/
theorem Process_exitInfo_reads_exit_state (self : Process) (o : Process_ExitInfo) (w : World)
    (hmagic : self._magicNumber = MAGIC_NUMBER) :
    (∃ e out1, Process_exitInfo self (some o) w = Run.ret (e, self, out1, w) ∧
      (e = Error.ProcessInvalidState ↔ self._isAlive = true) ∧
      (self._isAlive = true → out1 = some o) ∧
      (self._isAlive = false → e = Error.Ok ∧
        out1 = some { normallyExited := self._normallyExited, exitValue := self._exitValue })) ∧
    (∀ (p0 : Process) (out0 out1 : Option Process_ExitInfo) (w0 : World),
      Process_wait p0 out0 w0 = Run.ret (Error.Ok, self, out1, w) →
        Process_exitInfo self (some o) w =
          Run.ret (Error.Ok, self,
            some { normallyExited := self._normallyExited, exitValue := self._exitValue }, w) ∧
        (out0.isSome = true →
          out1 = some { normallyExited := self._normallyExited,
                        exitValue := self._exitValue })) := by
  have hdead : self._isAlive = false →
      Process_exitInfo self (some o) w =
        Run.ret (Error.Ok, self,
          some { normallyExited := self._normallyExited, exitValue := self._exitValue }, w) := by
    intro hd
    unfold Process_exitInfo
    simp only [hmagic, hd, assert, beq_self_eq_true, if_true, ret_bind, Option.isSome_some,
      Bool.false_eq_true, if_false, pure_eq_ret]
  constructor
  · cases halive : self._isAlive with
    | true =>
      refine ⟨Error.ProcessInvalidState, some o, ?_, ?_, ?_, ?_⟩
      · unfold Process_exitInfo
        simp only [hmagic, halive, assert, beq_self_eq_true, if_true, ret_bind,
          Option.isSome_some, pure_eq_ret]
      · exact ⟨fun _ => rfl, fun _ => rfl⟩
      · intro _; rfl
      · intro h; exact Bool.noConfusion h
    | false =>
      refine ⟨Error.Ok, some ⟨self._normallyExited, self._exitValue⟩, ?_, ?_, ?_, ?_⟩
      · rw [hdead halive]
      · exact ⟨fun h => Error.noConfusion h, fun h => Bool.noConfusion h⟩
      · intro h; exact Bool.noConfusion h
      · intro _; exact ⟨rfl, rfl⟩
  · intro p0 out0 out1 w0 hw
    rcases Process_wait_inv p0 self out0 out1 w0 w Error.Ok hw with h | h
    · exact Error.noConfusion h.2.1
    · obtain ⟨_, _, st, _, _, hp, hout⟩ := h
      have hd : self._isAlive = false := by
        rw [hp]; unfold recorded; split <;> rfl
      refine ⟨hdead hd, ?_⟩
      intro hsome
      cases out0 with
      | none => exact Bool.noConfusion hsome
      | some o0 => rw [hout]; rfl

/-- C3 at the record and world a wait on `liveProcess` leaves, and at the
live record itself. -/
theorem Process_exitInfo_reads_exit_state_witness :
    Process_exitInfo deadProcess (some ⟨false, 77⟩)
        (reapedWorld 42 (.exited 1) (worldWith (.zombie (.exited 1)))) =
      Run.ret (Error.Ok, deadProcess, some ⟨true, 1⟩,
        reapedWorld 42 (.exited 1) (worldWith (.zombie (.exited 1)))) ∧
    ∃ e out1, Process_exitInfo liveProcess (some ⟨false, 77⟩) (worldWith (.zombie (.exited 1))) =
        Run.ret (e, liveProcess, out1, worldWith (.zombie (.exited 1))) ∧
      (e = Error.ProcessInvalidState ↔ liveProcess._isAlive = true) :=
  ⟨((Process_exitInfo_reads_exit_state deadProcess ⟨false, 77⟩
      (reapedWorld 42 (.exited 1) (worldWith (.zombie (.exited 1)))) rfl).2
      liveProcess (some ⟨false, 0⟩) (some ⟨true, 1⟩)
      (worldWith (.zombie (.exited 1))) (by decide)).1,
   (Process_exitInfo_reads_exit_state liveProcess ⟨false, 77⟩
      (worldWith (.zombie (.exited 1))) rfl).1.imp
      (fun _ h => h.imp (fun _ h2 => ⟨h2.1, h2.2.1⟩))⟩

/-- C6: when the three pipes were opened and `fork` returns a pid in the
parent, `Process_spawn` returns `Ok` with `_id` the pid,
`_inputFileDescriptor` the write end of the input pipe,
`_outputFileDescriptor` the read end of the output pipe,
`_errorFileDescriptor` the read end of the error pipe, `_isAlive = true`,
`_normallyExited = false` and `_exitValue = 0`; the three recorded
descriptors are open on those pipe ends, the three child-side ends are closed
in the parent, and the child is running. -/
theorem Process_spawn_parent_record (self : Process) (o : ForkOracle) (intr : Nat × Nat × Nat)
    (streams : Streams) (w wa wb wc : World) (pe po pi : Pipe)
    (h1 : Pipe_open w = Run.ret (pe, wa)) (h2 : Pipe_open wa = Run.ret (po, wb))
    (h3 : Pipe_open wb = Run.ret (pi, wc)) (hpid : 0 < o.ret) :
    ∃ w1, Process_spawn self o intr streams w =
        Run.ret (.returned .Ok
          { _magicNumber := MAGIC_NUMBER
            _id := o.ret
            _inputFileDescriptor := pi.outputFileDescriptor
            _errorFileDescriptor := pe.inputFileDescriptor
            _outputFileDescriptor := po.inputFileDescriptor
            _exitValue := 0
            _isAlive := true
            _normallyExited := false } w1) ∧
      getProc o.ret w1.procs = some (.running o.fate o.onTerm) ∧
      getFd w1.fds pi.outputFileDescriptor = some (.pipeEnd (w.nextPipe + 2) true) ∧
      getFd w1.fds po.inputFileDescriptor = some (.pipeEnd (w.nextPipe + 1) false) ∧
      getFd w1.fds pe.inputFileDescriptor = some (.pipeEnd w.nextPipe false) ∧
      getFd w1.fds pi.inputFileDescriptor = none ∧
      getFd w1.fds po.outputFileDescriptor = none ∧
      getFd w1.fds pe.outputFileDescriptor = none := by
  obtain ⟨⟨e2, e3, e4, e5, e6, e7⟩, _, hfds, _, _, _⟩ :=
    three_pipes w wa wb wc pe po pi h1 h2 h3
  refine ⟨_, Process_spawn_parent self o intr streams w wa wb wc pe po pi h1 h2 h3 hpid,
    getProc_setProc_same _ _ _, ?_, ?_, ?_, ?_, ?_, ?_⟩
  · simp (disch := first | omega | (simp only [List.length_set]; omega)) only [hfds,
      getFd_set_ne, getFd_set_eq, List.length_set]
  · simp (disch := first | omega | (simp only [List.length_set]; omega)) only [hfds,
      getFd_set_ne, getFd_set_eq, List.length_set]
  · simp (disch := first | omega | (simp only [List.length_set]; omega)) only [hfds,
      getFd_set_ne, getFd_set_eq, List.length_set]
  · simp (disch := first | omega | (simp only [List.length_set]; omega)) only [hfds,
      getFd_set_ne, getFd_set_eq, List.length_set]
  · simp (disch := first | omega | (simp only [List.length_set]; omega)) only [hfds,
      getFd_set_ne, getFd_set_eq, List.length_set]
  · simp (disch := first | omega | (simp only [List.length_set]; omega)) only [hfds,
      getFd_set_ne, getFd_set_eq, List.length_set]

/-- C6 at `world0`, where the pipes take the descriptors 3 to 8 and the
child gets pid 42. -/
theorem Process_spawn_parent_record_witness :
    ∃ w1, Process_spawn Process.zero ⟨42, none, some 0⟩ (0, 0, 0) stdStreams world0 =
        Run.ret (.returned .Ok liveProcess w1) ∧
      getFd w1.fds 8 = some (.pipeEnd 2 true) ∧ getFd w1.fds 5 = some (.pipeEnd 1 false) ∧
      getFd w1.fds 3 = some (.pipeEnd 0 false) ∧
      getFd w1.fds 7 = none ∧ getFd w1.fds 6 = none ∧ getFd w1.fds 4 = none := by
  obtain ⟨w1, h, _, g⟩ :=
    Process_spawn_parent_record Process.zero ⟨42, none, some 0⟩ (0, 0, 0) stdStreams world0
      world1 world2 world3 ⟨3, 4⟩ ⟨5, 6⟩ ⟨7, 8⟩ (by decide) (by decide) (by decide) (by decide)
  exact ⟨w1, h, g⟩

/-- C9: let the three standard streams be open on three distinct
descriptors (`fileno(stdin)`, `fileno(stdout)`, `fileno(stderr)`; 0, 1 and 2
in the usual layout), let the three pipes be opened (error pipe
`w.nextPipe`, output pipe `w.nextPipe + 1`, input pipe `w.nextPipe + 2`) and
let no descriptor refer to a pipe not yet created.  Then the six pipe
descriptors are distinct and differ from the three stream descriptors.  In
the child, when `f` is called, the descriptor of `stdin` is the read end of
the input pipe, that of `stdout` the write end of the output pipe, that of
`stderr` the write end of the error pipe, the six pipe descriptors are
closed, every other descriptor is as before, and no other descriptor refers
to one of the three pipes.  In the parent, on return, the write end of the
input pipe and the read ends of the output and error pipes are open on their
descriptors, the other three are closed, every other descriptor is as before,
and no other descriptor refers to one of the three pipes. -/
theorem Process_spawn_wires_pipes (self : Process) (o : ForkOracle) (intr : Nat × Nat × Nat)
    (streams : Streams) (w wa wb wc : World) (pe po pi : Pipe) (s0 s1 s2 : FileObj)
    (h1 : Pipe_open w = Run.ret (pe, wa)) (h2 : Pipe_open wa = Run.ret (po, wb))
    (h3 : Pipe_open wb = Run.ret (pi, wc))
    (hs0 : getFd w.fds streams.stdin = some s0) (hs1 : getFd w.fds streams.stdout = some s1)
    (hs2 : getFd w.fds streams.stderr = some s2)
    (hd1 : streams.stdin ≠ streams.stdout) (hd2 : streams.stdin ≠ streams.stderr)
    (hd3 : streams.stdout ≠ streams.stderr)
    (hfresh : ∀ fd k b, getFd w.fds fd = some (.pipeEnd k b) → k < w.nextPipe) :
    (pe.inputFileDescriptor < pe.outputFileDescriptor ∧
      pe.outputFileDescriptor < po.inputFileDescriptor ∧
      po.inputFileDescriptor < po.outputFileDescriptor ∧
      po.outputFileDescriptor < pi.inputFileDescriptor ∧
      pi.inputFileDescriptor < pi.outputFileDescriptor ∧
      ∀ fd, fd = streams.stdin ∨ fd = streams.stdout ∨ fd = streams.stderr →
        fd ≠ pe.inputFileDescriptor ∧ fd ≠ pe.outputFileDescriptor ∧
        fd ≠ po.inputFileDescriptor ∧ fd ≠ po.outputFileDescriptor ∧
        fd ≠ pi.inputFileDescriptor ∧ fd ≠ pi.outputFileDescriptor) ∧
    (o.ret = 0 →
      ∃ w1, Process_spawn self o intr streams w = Run.ret (.child w1) ∧
        getFd w1.fds streams.stdin = some (.pipeEnd (w.nextPipe + 2) false) ∧
        getFd w1.fds streams.stdout = some (.pipeEnd (w.nextPipe + 1) true) ∧
        getFd w1.fds streams.stderr = some (.pipeEnd w.nextPipe true) ∧
        getFd w1.fds pe.inputFileDescriptor = none ∧
        getFd w1.fds pe.outputFileDescriptor = none ∧
        getFd w1.fds po.inputFileDescriptor = none ∧
        getFd w1.fds po.outputFileDescriptor = none ∧
        getFd w1.fds pi.inputFileDescriptor = none ∧
        getFd w1.fds pi.outputFileDescriptor = none ∧
        (∀ fd, fd ≠ streams.stdin → fd ≠ streams.stdout → fd ≠ streams.stderr →
          fd ≠ pe.inputFileDescriptor → fd ≠ pe.outputFileDescriptor →
          fd ≠ po.inputFileDescriptor → fd ≠ po.outputFileDescriptor →
          fd ≠ pi.inputFileDescriptor → fd ≠ pi.outputFileDescriptor →
          getFd w1.fds fd = getFd w.fds fd) ∧
        ∀ fd k b, w.nextPipe ≤ k → getFd w1.fds fd = some (.pipeEnd k b) →
          (fd = streams.stdin ∧ k = w.nextPipe + 2 ∧ b = false) ∨
            (fd = streams.stdout ∧ k = w.nextPipe + 1 ∧ b = true) ∨
            (fd = streams.stderr ∧ k = w.nextPipe ∧ b = true)) ∧
    (0 < o.ret →
      ∃ p1 w1, Process_spawn self o intr streams w = Run.ret (.returned .Ok p1 w1) ∧
        getFd w1.fds pi.outputFileDescriptor = some (.pipeEnd (w.nextPipe + 2) true) ∧
        getFd w1.fds po.inputFileDescriptor = some (.pipeEnd (w.nextPipe + 1) false) ∧
        getFd w1.fds pe.inputFileDescriptor = some (.pipeEnd w.nextPipe false) ∧
        getFd w1.fds pi.inputFileDescriptor = none ∧
        getFd w1.fds po.outputFileDescriptor = none ∧
        getFd w1.fds pe.outputFileDescriptor = none ∧
        (∀ fd, fd ≠ pe.inputFileDescriptor → fd ≠ pe.outputFileDescriptor →
          fd ≠ po.inputFileDescriptor → fd ≠ po.outputFileDescriptor →
          fd ≠ pi.inputFileDescriptor → fd ≠ pi.outputFileDescriptor →
          getFd w1.fds fd = getFd w.fds fd) ∧
        ∀ fd k b, w.nextPipe ≤ k → getFd w1.fds fd = some (.pipeEnd k b) →
          (fd = pi.outputFileDescriptor ∧ k = w.nextPipe + 2 ∧ b = true) ∨
            (fd = po.inputFileDescriptor ∧ k = w.nextPipe + 1 ∧ b = false) ∨
            (fd = pe.inputFileDescriptor ∧ k = w.nextPipe ∧ b = false)) := by
  obtain ⟨⟨e2, e3, e4, e5, e6, e7⟩, ⟨f1, f2, f3, f4, f5, f6⟩, hfds, _, _, _⟩ :=
    three_pipes w wa wb wc pe po pi h1 h2 h3
  refine ⟨⟨e2, e3, e4, e5, e6, ?_⟩, ?_, ?_⟩
  · intro fd hfd
    rcases hfd with h | h | h
    · subst h
      exact ⟨open_ne_closed _ _ _ _ hs0 f1, open_ne_closed _ _ _ _ hs0 f2,
        open_ne_closed _ _ _ _ hs0 f3, open_ne_closed _ _ _ _ hs0 f4,
        open_ne_closed _ _ _ _ hs0 f5, open_ne_closed _ _ _ _ hs0 f6⟩
    · subst h
      exact ⟨open_ne_closed _ _ _ _ hs1 f1, open_ne_closed _ _ _ _ hs1 f2,
        open_ne_closed _ _ _ _ hs1 f3, open_ne_closed _ _ _ _ hs1 f4,
        open_ne_closed _ _ _ _ hs1 f5, open_ne_closed _ _ _ _ hs1 f6⟩
    · subst h
      exact ⟨open_ne_closed _ _ _ _ hs2 f1, open_ne_closed _ _ _ _ hs2 f2,
        open_ne_closed _ _ _ _ hs2 f3, open_ne_closed _ _ _ _ hs2 f4,
        open_ne_closed _ _ _ _ hs2 f5, open_ne_closed _ _ _ _ hs2 f6⟩
  · intro hpid
    obtain ⟨w1, hsp, _, c0, c1, c2, d1, d2, d3, d4, d5, d6, hframe⟩ :=
      Process_spawn_child self o intr streams w wa wb wc pe po pi s0 s1 s2 h1 h2 h3 hs0 hs1 hs2
        hd1 hd2 hd3 hpid
    refine ⟨w1, hsp, c0, c1, c2, d1, d2, d3, d4, d5, d6, hframe, ?_⟩
    intro fd k b hk hfd
    by_cases g0 : fd = streams.stdin
    · rw [g0, c0] at hfd
      simp only [Option.some.injEq, FileObj.pipeEnd.injEq] at hfd
      exact Or.inl ⟨g0, hfd.1.symm, hfd.2.symm⟩
    by_cases g1 : fd = streams.stdout
    · rw [g1, c1] at hfd
      simp only [Option.some.injEq, FileObj.pipeEnd.injEq] at hfd
      exact Or.inr (Or.inl ⟨g1, hfd.1.symm, hfd.2.symm⟩)
    by_cases g2 : fd = streams.stderr
    · rw [g2, c2] at hfd
      simp only [Option.some.injEq, FileObj.pipeEnd.injEq] at hfd
      exact Or.inr (Or.inr ⟨g2, hfd.1.symm, hfd.2.symm⟩)
    exfalso
    by_cases q1 : fd = pe.inputFileDescriptor
    · rw [q1, d1] at hfd; exact Option.noConfusion hfd
    by_cases q2 : fd = pe.outputFileDescriptor
    · rw [q2, d2] at hfd; exact Option.noConfusion hfd
    by_cases q3 : fd = po.inputFileDescriptor
    · rw [q3, d3] at hfd; exact Option.noConfusion hfd
    by_cases q4 : fd = po.outputFileDescriptor
    · rw [q4, d4] at hfd; exact Option.noConfusion hfd
    by_cases q5 : fd = pi.inputFileDescriptor
    · rw [q5, d5] at hfd; exact Option.noConfusion hfd
    by_cases q6 : fd = pi.outputFileDescriptor
    · rw [q6, d6] at hfd; exact Option.noConfusion hfd
    rw [hframe fd g0 g1 g2 q1 q2 q3 q4 q5 q6] at hfd
    have := hfresh fd k b hfd
    omega
  · intro hpid
    have hsp := Process_spawn_parent self o intr streams w wa wb wc pe po pi h1 h2 h3 hpid
    have c1 : getFd (((wc.fds.set pi.inputFileDescriptor none).set pe.outputFileDescriptor
        none).set po.outputFileDescriptor none) pi.outputFileDescriptor
        = some (.pipeEnd (w.nextPipe + 2) true) := by
      simp (disch := first | omega | (simp only [List.length_set]; omega)) only [hfds,
        getFd_set_ne, getFd_set_eq, List.length_set]
    have c2 : getFd (((wc.fds.set pi.inputFileDescriptor none).set pe.outputFileDescriptor
        none).set po.outputFileDescriptor none) po.inputFileDescriptor
        = some (.pipeEnd (w.nextPipe + 1) false) := by
      simp (disch := first | omega | (simp only [List.length_set]; omega)) only [hfds,
        getFd_set_ne, getFd_set_eq, List.length_set]
    have c3 : getFd (((wc.fds.set pi.inputFileDescriptor none).set pe.outputFileDescriptor
        none).set po.outputFileDescriptor none) pe.inputFileDescriptor
        = some (.pipeEnd w.nextPipe false) := by
      simp (disch := first | omega | (simp only [List.length_set]; omega)) only [hfds,
        getFd_set_ne, getFd_set_eq, List.length_set]
    have d1 : getFd (((wc.fds.set pi.inputFileDescriptor none).set pe.outputFileDescriptor
        none).set po.outputFileDescriptor none) pi.inputFileDescriptor
        = none := by
      simp (disch := first | omega | (simp only [List.length_set]; omega)) only [hfds,
        getFd_set_ne, getFd_set_eq, List.length_set]
    have d2 : getFd (((wc.fds.set pi.inputFileDescriptor none).set pe.outputFileDescriptor
        none).set po.outputFileDescriptor none) po.outputFileDescriptor
        = none := by
      simp (disch := first | omega | (simp only [List.length_set]; omega)) only [hfds,
        getFd_set_ne, getFd_set_eq, List.length_set]
    have d3 : getFd (((wc.fds.set pi.inputFileDescriptor none).set pe.outputFileDescriptor
        none).set po.outputFileDescriptor none) pe.outputFileDescriptor
        = none := by
      simp (disch := first | omega | (simp only [List.length_set]; omega)) only [hfds,
        getFd_set_ne, getFd_set_eq, List.length_set]
    have hframe : ∀ fd, fd ≠ pe.inputFileDescriptor → fd ≠ pe.outputFileDescriptor →
        fd ≠ po.inputFileDescriptor → fd ≠ po.outputFileDescriptor →
        fd ≠ pi.inputFileDescriptor → fd ≠ pi.outputFileDescriptor →
        getFd (((wc.fds.set pi.inputFileDescriptor none).set pe.outputFileDescriptor
          none).set po.outputFileDescriptor none) fd = getFd w.fds fd := by
      intro fd q1 q2 q3 q4 q5 q6
      simp (disch := first | omega | (simp only [List.length_set]; omega)) only [hfds,
        getFd_set_ne, getFd_set_eq, List.length_set]
    refine ⟨_, _, hsp, c1, c2, c3, d1, d2, d3, hframe, ?_⟩
    intro fd k b hk hfd
    simp only at hfd
    by_cases q6 : fd = pi.outputFileDescriptor
    · rw [q6, c1] at hfd
      simp only [Option.some.injEq, FileObj.pipeEnd.injEq] at hfd
      exact Or.inl ⟨q6, hfd.1.symm, hfd.2.symm⟩
    by_cases q3 : fd = po.inputFileDescriptor
    · rw [q3, c2] at hfd
      simp only [Option.some.injEq, FileObj.pipeEnd.injEq] at hfd
      exact Or.inr (Or.inl ⟨q3, hfd.1.symm, hfd.2.symm⟩)
    by_cases q1 : fd = pe.inputFileDescriptor
    · rw [q1, c3] at hfd
      simp only [Option.some.injEq, FileObj.pipeEnd.injEq] at hfd
      exact Or.inr (Or.inr ⟨q1, hfd.1.symm, hfd.2.symm⟩)
    exfalso
    by_cases q5 : fd = pi.inputFileDescriptor
    · rw [q5, d1] at hfd; exact Option.noConfusion hfd
    by_cases q4 : fd = po.outputFileDescriptor
    · rw [q4, d2] at hfd; exact Option.noConfusion hfd
    by_cases q2 : fd = pe.outputFileDescriptor
    · rw [q2, d3] at hfd; exact Option.noConfusion hfd
    rw [hframe fd q1 q2 q3 q4 q5 q6] at hfd
    have := hfresh fd k b hfd
    omega

/-- C9 in the usual layout at `world0`, in the child (with the second `dup2`
interrupted once) and in the parent, and in the child when `stdout` is on
descriptor 3: the output pipe is then wired to 3 and descriptor 1 stays on
the old file. -/
theorem Process_spawn_wires_pipes_witness :
    (∃ w1, Process_spawn Process.zero ⟨0, none, none⟩ (0, 1, 0) stdStreams world0 =
        Run.ret (.child w1) ∧
      getFd w1.fds 0 = some (.pipeEnd 2 false) ∧ getFd w1.fds 1 = some (.pipeEnd 1 true) ∧
      getFd w1.fds 2 = some (.pipeEnd 0 true)) ∧
    (∃ p1 w1, Process_spawn Process.zero ⟨42, none, none⟩ (0, 0, 0) stdStreams world0 =
        Run.ret (.returned .Ok p1 w1) ∧
      getFd w1.fds 8 = some (.pipeEnd 2 true) ∧ getFd w1.fds 5 = some (.pipeEnd 1 false) ∧
      getFd w1.fds 3 = some (.pipeEnd 0 false)) ∧
    (∃ w1, Process_spawn Process.zero ⟨0, none, none⟩ (0, 0, 0) movedStreams worldMoved =
        Run.ret (.child w1) ∧
      getFd w1.fds 0 = some (.pipeEnd 2 false) ∧ getFd w1.fds 3 = some (.pipeEnd 1 true) ∧
      getFd w1.fds 2 = some (.pipeEnd 0 true) ∧ getFd w1.fds 1 = some (.file 1)) := by
  refine ⟨?_, ?_, ?_⟩
  · obtain ⟨w1, h, c0, c1, c2, _⟩ :=
      (Process_spawn_wires_pipes Process.zero ⟨0, none, none⟩ (0, 1, 0) stdStreams world0 world1
        world2 world3 ⟨3, 4⟩ ⟨5, 6⟩ ⟨7, 8⟩ (.file 0) (.file 1) (.file 2) (by decide) (by decide)
        (by decide) rfl rfl rfl (by decide) (by decide) (by decide) world0_no_pipe).2.1 rfl
    exact ⟨w1, h, c0, c1, c2⟩
  · obtain ⟨p1, w1, h, c0, c1, c2, _⟩ :=
      (Process_spawn_wires_pipes Process.zero ⟨42, none, none⟩ (0, 0, 0) stdStreams world0
        world1 world2 world3 ⟨3, 4⟩ ⟨5, 6⟩ ⟨7, 8⟩ (.file 0) (.file 1) (.file 2) (by decide)
        (by decide) (by decide) rfl rfl rfl (by decide) (by decide) (by decide)
        world0_no_pipe).2.2 (by decide)
    exact ⟨p1, w1, h, c0, c1, c2⟩
  · obtain ⟨w1, h, c0, c1, c2, _, _, _, _, _, _, hframe, _⟩ :=
      (Process_spawn_wires_pipes Process.zero ⟨0, none, none⟩ (0, 0, 0) movedStreams worldMoved
        worldMoved1 worldMoved2 worldMoved3 ⟨4, 5⟩ ⟨6, 7⟩ ⟨8, 9⟩ (.file 0) (.file 3) (.file 2)
        (by decide) (by decide) (by decide) rfl rfl rfl (by decide) (by decide) (by decide)
        worldMoved_no_pipe).2.1 rfl
    exact ⟨w1, h, c0, c1, c2,
      hframe 1 (by decide) (by decide) (by decide) (by decide) (by decide) (by decide)
        (by decide) (by decide) (by decide)⟩

/-- C4: a record on which `Process_spawn` returned `Ok` has
`_isAlive = true`.  When `Process_wait` returns `Ok` on the record of a child
(positive pid), the record was alive, the kernel was going to report a
termination `t` for that child in the world before the call, the record left
is the old one with `_isAlive = false` and the exit state of `t`, and the
world left is the old one with the child reaped by one blocking `waitpid`.
When `Process_cancel` returns on such a record, the record was alive, the
child was running before the call and `t` is the termination
`observedByCancel` reads off its behaviour (SIGKILL if the code sent it,
else the termination the child was heading for after SIGTERM, whether it
honoured SIGTERM or not); the record left is the old one with
`_isAlive = false` and the exit state of `t`, and the world left is the old
one with the child reaped and the calls `cancelCalls` added.  And
`Process_cancel` does return with that record and world whenever
`observedByCancel` names a termination. -/
theorem isAlive_after_spawn_wait_cancel :
    (∀ (self p1 : Process) (o : ForkOracle) (intr : Nat × Nat × Nat) (streams : Streams)
      (w w1 : World),
      Process_spawn self o intr streams w = Run.ret (.returned .Ok p1 w1) →
        p1._isAlive = true) ∧
    (∀ (self p1 : Process) (out out1 : Option Process_ExitInfo) (w w1 : World),
      0 < self._id → Process_wait self out w = Run.ret (Error.Ok, p1, out1, w1) →
        self._isAlive = true ∧ p1._isAlive = false ∧
          ∃ t, awaited self._id w = some t ∧ p1 = recorded self t.status ∧
            w1 = reapedWorld self._id t w ∧
            getProc self._id w1.procs = some (.reaped t) ∧
            (t.valid = true → p1._normallyExited = t.info.normallyExited ∧
              p1._exitValue = t.info.exitValue)) ∧
    (∀ (self p1 : Process) (status : Int) (w w1 : World),
      0 < self._id → Process_cancel self status w = Run.ret (p1, w1) →
        self._isAlive = true ∧ p1._isAlive = false ∧
          ∃ t, observedByCancel self._id status w = some t ∧ p1 = recorded self t.status ∧
            w1 = { w with
              procs := setProc self._id (.reaped t) w.procs
              trace := w.trace ++ cancelCalls self._id status } ∧
            getProc self._id w1.procs = some (.reaped t) ∧
            (t.valid = true → p1._normallyExited = t.info.normallyExited ∧
              p1._exitValue = t.info.exitValue)) ∧
    (∀ (self : Process) (status : Int) (w : World) (t : Termination),
      self._magicNumber = MAGIC_NUMBER → self._isAlive = true →
        observedByCancel self._id status w = some t → t.valid = true →
          Process_cancel self status w =
            Run.ret ({ self with _normallyExited := t.info.normallyExited,
                                 _exitValue := t.info.exitValue, _isAlive := false },
              { w with
                procs := setProc self._id (.reaped t) w.procs
                trace := w.trace ++ cancelCalls self._id status })) := by
  refine ⟨?_, ?_, ?_, ?_⟩
  · intro self p1 o intr streams w w1 h
    exact (Process_spawn_ok_alive self p1 o intr streams w w1 h).1
  · intro self p1 out out1 w w1 hpid h
    obtain ⟨halive, hdead, t, haw, hw1, hproc, hp⟩ :=
      Process_wait_ok_spec self p1 out out1 w w1 hpid h
    refine ⟨halive, hdead, t, haw, hp, hw1, hproc, ?_⟩
    intro hv
    rw [hp, (recorded_valid self t hv).2]
    exact ⟨rfl, rfl⟩
  · intro self p1 status w w1 hpid h
    obtain ⟨_, halive, t, hobs, _, hp, hw1⟩ := Process_cancel_ret_inv self p1 status w w1 hpid h
    refine ⟨halive, ?_, t, hobs, hp, hw1, ?_, ?_⟩
    · rw [hp]; unfold recorded; split <;> rfl
    · rw [hw1]; exact getProc_setProc_same _ _ _
    · intro hv
      rw [hp, (recorded_valid self t hv).2]
      exact ⟨rfl, rfl⟩
  · intro self status w t hmagic halive hobs hv
    rw [Process_cancel_returns self status w t hmagic halive hobs (recorded_valid self t hv).1,
      (recorded_valid self t hv).2]

/-- C4 at `world0` for spawn, at a child that called `exit(1)` for wait, and
for cancel at a child that dies from SIGTERM after the polls (`status`
holding 0), at one that ignores SIGTERM (`status` holding 127) and at one
that calls `exit(3)` by itself after the polls (`status` holding 0). -/
theorem isAlive_after_spawn_wait_cancel_witness :
    (Process_spawn Process.zero ⟨42, none, some 0⟩ (0, 0, 0) stdStreams world0 =
        Run.ret (.returned .Ok liveProcess worldSpawned) ∧ liveProcess._isAlive = true) ∧
    (Process_wait liveProcess none (worldWith (.zombie (.exited 1))) =
        Run.ret (Error.Ok, deadProcess, none,
          reapedWorld 42 (.exited 1) (worldWith (.zombie (.exited 1)))) ∧
      deadProcess._isAlive = false) ∧
    (Process_cancel liveProcess 0 (worldWith (.running none (some 3))) =
        Run.ret cancelledByTerm ∧ cancelledByTerm.1._isAlive = false ∧
      observedByCancel 42 0 (worldWith (.running none (some 3))) =
        some (.signaled SIGTERM false) ∧
      cancelledByTerm.1._exitValue = 15) ∧
    (Process_cancel liveProcess 127 (worldWith (.running none none)) =
        Run.ret cancelledByKill ∧ cancelledByKill.1._isAlive = false ∧
      observedByCancel 42 127 (worldWith (.running none none)) =
        some (.signaled SIGKILL false) ∧
      cancelledByKill.1._exitValue = 9) ∧
    Process_cancel liveProcess 0 (worldWith (.running (some (5, .exited 3)) none)) =
      Run.ret ({ liveProcess with _normallyExited := true, _exitValue := 3, _isAlive := false },
        { worldWith (.reaped (.exited 3)) with trace := cancelCalls 42 0 }) :=
  ⟨⟨by decide, isAlive_after_spawn_wait_cancel.1 Process.zero liveProcess ⟨42, none, some 0⟩
      (0, 0, 0) stdStreams world0 worldSpawned (by decide)⟩,
   ⟨by decide, (isAlive_after_spawn_wait_cancel.2.1 liveProcess deadProcess none none
      (worldWith (.zombie (.exited 1)))
      (reapedWorld 42 (.exited 1) (worldWith (.zombie (.exited 1))))
      (by decide) (by decide)).2.1⟩,
   ⟨by decide, (isAlive_after_spawn_wait_cancel.2.2.1 liveProcess cancelledByTerm.1 0
      (worldWith (.running none (some 3))) cancelledByTerm.2 (by decide) (by decide)).2.1,
    by decide, by decide⟩,
   ⟨by decide, (isAlive_after_spawn_wait_cancel.2.2.1 liveProcess cancelledByKill.1 127
      (worldWith (.running none none)) cancelledByKill.2 (by decide) (by decide)).2.1,
    by decide, by decide⟩,
   isAlive_after_spawn_wait_cancel.2.2.2 liveProcess 0
     (worldWith (.running (some (5, .exited 3)) none)) (.exited 3) rfl rfl (by decide)
     (by decide)⟩

/-- C5 fails on the code: when the child of `liveProcess` dies from SIGTERM
before the first poll, that poll reaps it, the second poll returns -1 and
`ensure` ends the program, whatever the uninitialised `status` held; the
same happens one poll later when the child dies between the first and the
second poll, and in the final `Process_wait` when the third poll reaps it.
A child that ignores SIGTERM is never sent SIGKILL when `status` happened to
hold 0, and `Process_cancel` blocks for ever in the final wait. -/
theorem Process_cancel_aborts_once_a_poll_reaps :
    (∀ status : Int,
      Process_cancel liveProcess status (worldWith (.running none (some 0))) =
        Run.abort { worldWith (.reaped (.signaled 15 false)) with
          trace := [.kill 42 15, .waitpid 42 1 42, .waitpid 42 1 (-1)] }) ∧
    Process_cancel liveProcess 0 (worldWith (.running none (some 1))) =
      Run.abort { worldWith (.reaped (.signaled 15 false)) with
        trace := [.kill 42 15, .waitpid 42 1 0, .waitpid 42 1 42, .waitpid 42 1 (-1)] } ∧
    Process_cancel liveProcess 0 (worldWith (.running none (some 2))) =
      Run.abort { worldWith (.reaped (.signaled 15 false)) with
        trace := [.kill 42 15, .waitpid 42 1 0, .waitpid 42 1 0, .waitpid 42 1 42,
          .waitpid 42 0 (-1)] } ∧
    Process_cancel liveProcess 0 (worldWith (.running none none)) =
      Run.hang { worldWith (.running none none) with
        trace := [.kill 42 15, .waitpid 42 1 0, .waitpid 42 1 0, .waitpid 42 1 0] } :=
  ⟨fun _ => rfl, by decide, by decide, by decide⟩

/-- C7 fails on the code: at `world0`, when `fork` fails, `Process_spawn`
returns `ProcessUnableToFork` without a single `close`, and the six pipe
descriptors 3 to 8, closed before the call, are open afterwards. -/
theorem Process_spawn_fork_failure_leaks :
    Process_spawn Process.zero ⟨-1, none, none⟩ (0, 0, 0) stdStreams world0 =
      Run.ret (.returned .ProcessUnableToFork Process.zero
        { world3 with trace := [.pipe 0, .pipe 0, .pipe 0, .fork (-1)] }) ∧
    (List.range 9).map (getFd world0.fds) =
      [some (.file 0), some (.file 1), some (.file 2), none, none, none, none, none, none] ∧
    (List.range 9).map (getFd world3.fds) =
      [some (.file 0), some (.file 1), some (.file 2), some (.pipeEnd 0 false),
       some (.pipeEnd 0 true), some (.pipeEnd 1 false), some (.pipeEnd 1 true),
       some (.pipeEnd 2 false), some (.pipeEnd 2 true)] := by
  decide

/-- C10 fails on the code: whether SIGKILL is sent depends on the value the
uninitialised `status` happens to hold.  For a child that ignores SIGTERM no
poll reports a termination, so no poll writes `status`: holding 0 it makes
`Process_cancel` poll three times without sleeping and send no SIGKILL (it
then blocks in the final wait); holding 127 it makes it sleep after each poll
and send SIGKILL.  For a child that dies from SIGTERM only after the polls,
SIGKILL is sent or not in the same way. -/
theorem Process_cancel_kill_depends_on_uninitialised_status :
    Process_cancel liveProcess 0 (worldWith (.running none none)) =
      Run.hang { worldWith (.running none none) with
        trace := [.kill 42 15, .waitpid 42 1 0, .waitpid 42 1 0, .waitpid 42 1 0] } ∧
    Process_cancel liveProcess 127 (worldWith (.running none none)) =
      Run.ret cancelledByKill ∧
    Process_cancel liveProcess 0 (worldWith (.running none (some 3))) =
      Run.ret cancelledByTerm ∧
    Process_cancel liveProcess 127 (worldWith (.running none (some 3))) =
      Run.ret cancelledByKill ∧
    Call.kill 42 SIGKILL ∉ cancelledByTerm.2.trace ∧
    Call.kill 42 SIGKILL ∈ cancelledByKill.2.trace := by
  decide

end Proc
